import Mathlib

/-!
libpointmatcher: labelled point clouds (`Core.h`) and the VTK inspector (`Inspectors.cpp`).

Shallow embedding of `MetricSpaceAligner<T>`.  The scalar type `T` stays a parameter: the
operations embedded here only copy coefficients, they never compute with them.

Modelling conventions.
* An Eigen dynamic matrix is its row count, its column count and its coefficients in
  column-major order (one list per column).
* An Eigen bounds assertion or a C `assert` that fails is the result `none`.
* `int` values are `Int`; a conversion to `int` and an `int` addition wrap modulo `2^32`.
  `size_t` values are `Nat`.
-/

namespace MetricSpaceAligner

/-! ## Machine integers -/

/-- Conversion of a `size_t` value to `int` (`const int span(descriptorLabels[i].span)`):
the value is reduced modulo `2^32` into the range `[-2^31, 2^31)`. -/
def toInt32 (n : Nat) : Int :=
  if n % 4294967296 < 2147483648 then ((n % 4294967296 : Nat) : Int)
  else ((n % 4294967296 : Nat) : Int) - 4294967296

/-- Result of an `int` operation whose mathematical value is `x`, wrapped into
`[-2^31, 2^31)`. -/
def wrapInt32 (x : Int) : Int :=
  (x + 2147483648) % 4294967296 - 2147483648

/-! ## Dense matrices (`Eigen::Matrix<T, Dynamic, Dynamic>`) -/

/-- Dynamic dense matrix.  `data` lists the columns, each column being the list of its
coefficients from row `0` on (column-major storage). -/
structure Matrix (T : Type) where
  rows : Nat
  cols : Nat
  data : List (List T)
deriving DecidableEq, Repr

/-- The default-constructed dynamic matrix `Matrix()`: no row, no column. -/
def Matrix.empty {T : Type} : Matrix T := ⟨0, 0, []⟩

/-- Representation invariant of an Eigen matrix: there are `cols` stored columns of `rows`
coefficients each, and both dimensions are values of type `int`. -/
def Matrix.WF {T : Type} (m : Matrix T) : Prop :=
  m.data.length = m.cols ∧ (∀ col ∈ m.data, col.length = m.rows) ∧
    m.rows < 2147483648 ∧ m.cols < 2147483648

instance {T : Type} (m : Matrix T) : Decidable m.WF :=
  inferInstanceAs (Decidable (m.data.length = m.cols ∧ (∀ col ∈ m.data, col.length = m.rows) ∧
    m.rows < 2147483648 ∧ m.cols < 2147483648))

/-- Coefficient access `m(r, c)`; `none` when the index is outside the matrix. -/
def Matrix.coeff {T : Type} (m : Matrix T) (r c : Nat) : Option T :=
  if r < m.rows ∧ c < m.cols then (m.data[c]?).bind (fun col => col[r]?) else none

/-- Eigen `m.block(startRow, startCol, blockRows, blockCols)`, read as a value.  `none` when
the requested block is not inside the matrix. -/
def Matrix.block {T : Type} (m : Matrix T) (startRow startCol blockRows blockCols : Int) :
    Option (Matrix T) :=
  if 0 ≤ startRow ∧ 0 ≤ blockRows ∧ startRow + blockRows ≤ m.rows ∧
      0 ≤ startCol ∧ 0 ≤ blockCols ∧ startCol + blockCols ≤ m.cols then
    some ⟨blockRows.toNat, blockCols.toNat,
      ((m.data.drop startCol.toNat).take blockCols.toNat).map
        (fun col => (col.drop startRow.toNat).take blockRows.toNat)⟩
  else none

/-! ## `DataPoints` -/

/-- `DataPoints::Label`: a name and the number of matrix rows it owns. -/
structure Label where
  text : String
  span : Nat
deriving DecidableEq, Repr

/-- The constructor `Label(const std::string& text = "", const size_t span = 0)`, called with
both arguments. -/
def Label.new (text : String) (span : Nat) : Label := ⟨text, span⟩

/-- The constructor `Label(text, span = 0)` called with the text only. -/
def Label.newText (text : String) : Label := Label.new text 0

/-- The constructor `Label(text = "", span = 0)` called with no argument. -/
def Label.newDefault : Label := Label.new "" 0

/-- `DataPoints::Labels` is `std::vector<Label>`. -/
abbrev Labels := List Label

/-- Sum of the spans of a label list. -/
def spanSum (ls : Labels) : Nat := (ls.map Label.span).sum

/-- `MetricSpaceAligner<T>::DataPoints`. -/
structure DataPoints (T : Type) where
  features : Matrix T
  featureLabels : Labels
  descriptors : Matrix T
  descriptorLabels : Labels
deriving DecidableEq, Repr

/-- The constructor `DataPoints() {}`: every member is default-constructed. -/
def DataPoints.new0 {T : Type} : DataPoints T := ⟨Matrix.empty, [], Matrix.empty, []⟩

/-- The constructor `DataPoints(features, featureLabels)`: the descriptor members are
default-constructed. -/
def DataPoints.new2 {T : Type} (features : Matrix T) (featureLabels : Labels) : DataPoints T :=
  ⟨features, featureLabels, Matrix.empty, []⟩

/-- The constructor `DataPoints(features, featureLabels, descriptors, descriptorLabels)`. -/
def DataPoints.new4 {T : Type} (features : Matrix T) (featureLabels : Labels)
    (descriptors : Matrix T) (descriptorLabels : Labels) : DataPoints T :=
  ⟨features, featureLabels, descriptors, descriptorLabels⟩

/-- Loop of `getDescriptorByName` from label `i` on, `row` being the value of the local
`int row` when the loop reaches that label. -/
def getDescriptorByNameFrom {T : Type} (descriptors : Matrix T) (name : String) :
    Labels → Int → Option (Matrix T)
  | [], _ => some Matrix.empty
  | l :: rest, row =>
    let span : Int := toInt32 l.span
    if l.text = name then
      descriptors.block row 0 span descriptors.cols
    else
      getDescriptorByNameFrom descriptors name rest (wrapInt32 (row + span))

/-- `DataPoints::getDescriptorByName`. -/
def DataPoints.getDescriptorByName {T : Type} (d : DataPoints T) (name : String) :
    Option (Matrix T) :=
  getDescriptorByNameFrom d.descriptors name d.descriptorLabels 0

/-- The data-model invariant of the specification: label spans sum to the row counts, and
the descriptors are empty (no row) or have as many columns as the features. -/
def DataPoints.Invariant {T : Type} (d : DataPoints T) : Prop :=
  spanSum d.featureLabels = d.features.rows ∧
    spanSum d.descriptorLabels = d.descriptors.rows ∧
    (d.descriptors.rows = 0 ∨ d.descriptors.cols = d.features.cols)

instance {T : Type} (d : DataPoints T) : Decidable d.Invariant :=
  inferInstanceAs (Decidable (spanSum d.featureLabels = d.features.rows ∧
    spanSum d.descriptorLabels = d.descriptors.rows ∧
    (d.descriptors.rows = 0 ∨ d.descriptors.cols = d.features.cols)))

/-- The specification's reading of a well-formed label: non-empty text, span at least 1. -/
def Label.Valid (l : Label) : Prop := l.text ≠ "" ∧ 1 ≤ l.span

instance (l : Label) : Decidable l.Valid :=
  inferInstanceAs (Decidable (l.text ≠ "" ∧ 1 ≤ l.span))

/-- `swapDataPoints(a, b)`: the four member swaps, in source order, on the pair of clouds. -/
def swapDataPoints {T : Type} (ab : DataPoints T × DataPoints T) :
    DataPoints T × DataPoints T :=
  let a0 := ab.1
  let b0 := ab.2
  -- a.features.swap(b.features);
  let a1 := { a0 with features := b0.features }
  let b1 := { b0 with features := a0.features }
  -- swap(a.featureLabels, b.featureLabels);
  let a2 := { a1 with featureLabels := b1.featureLabels }
  let b2 := { b1 with featureLabels := a1.featureLabels }
  -- a.descriptors.swap(b.descriptors);
  let a3 := { a2 with descriptors := b2.descriptors }
  let b3 := { b2 with descriptors := a2.descriptors }
  -- swap(a.descriptorLabels, b.descriptorLabels);
  let a4 := { a3 with descriptorLabels := b3.descriptorLabels }
  let b4 := { b3 with descriptorLabels := a3.descriptorLabels }
  (a4, b4)

/-- `IdentityDataPointsFilter::stepFilter(input, iterate)`: `{return input;}`.  The flag is
passed by reference, so its value after the call is returned with the cloud. -/
def IdentityDataPointsFilter.stepFilter {T : Type} (input : DataPoints T) (iterate : Bool) :
    DataPoints T × Bool :=
  (input, iterate)

/-! ## Intermediate types -/

/-- `Matches`: distances and reference indices, both `K × N`. -/
structure Matches (T : Type) where
  dists : Matrix T
  ids : Matrix Int
deriving DecidableEq, Repr

/-- `OutlierWeights` is a matrix. -/
abbrev OutlierWeights (T : Type) := Matrix T

/-- `ErrorMinimizer::ErrorElements` (the member `matches` is spelt `matches_`, `matches`
being reserved). -/
structure ErrorElements (T : Type) where
  reading : DataPoints T
  reference : DataPoints T
  weights : OutlierWeights T
  matches_ : Matches T
deriving DecidableEq, Repr

/-- The constructor of `ErrorElements`: the members are initialised from the arguments, then
the three assertions of the body are checked in order. -/
def ErrorElements.new {T : Type} (reading reference : DataPoints T)
    (weights : OutlierWeights T) (matches_ : Matches T) : Option (ErrorElements T) :=
  if reading.features.cols ≠ reference.features.cols then none
  else if reading.features.cols ≠ weights.cols then none
  else if reading.features.cols ≠ matches_.dists.cols then none
  else some ⟨reading, reference, weights, matches_⟩

/-! ## Further matrix operations used by the inspector -/

/-- Eigen `m.transpose()`, read as a value: row `r` of `m` becomes column `r`. -/
def Matrix.transpose {T : Type} (m : Matrix T) : Matrix T :=
  ⟨m.cols, m.rows, (List.range m.rows).map (fun r => m.data.filterMap (fun col => col[r]?))⟩

/-- Eigen 2 `m.corner(Eigen::TopLeft, cRows, cCols)`, the block starting at `(0, 0)`. -/
def Matrix.cornerTopLeft {T : Type} (m : Matrix T) (cRows cCols : Int) : Option (Matrix T) :=
  m.block 0 0 cRows cCols

/-- `Matrix::Zero(rows, cols)`; `none` for a negative dimension. -/
def Matrix.Zero {T : Type} [Zero T] (rows cols : Int) : Option (Matrix T) :=
  if 0 ≤ rows ∧ 0 ≤ cols then
    some ⟨rows.toNat, cols.toNat, List.replicate cols.toNat (List.replicate rows.toNat 0)⟩
  else none

/-- Columns of the destination after the first `rows` coefficients of each of its leading
columns have been overwritten by the source columns. -/
def overlayColumns {T : Type} (rows : Nat) : List (List T) → List (List T) → List (List T)
  | [], dst => dst
  | _ :: _, [] => []
  | s :: ss, d :: ds => (s.take rows ++ d.drop rows) :: overlayColumns rows ss ds

/-- The assignment `tmp.corner(Eigen::TopLeft, m.rows(), m.cols()) = m`; `none` when the
corner is not inside `tmp`. -/
def Matrix.assignTopLeft {T : Type} (tmp m : Matrix T) : Option (Matrix T) :=
  if m.rows ≤ tmp.rows ∧ m.cols ≤ tmp.cols then
    some ⟨tmp.rows, tmp.cols, overlayColumns m.rows (m.data.take m.cols) tmp.data⟩
  else none

/-! ## Output streams -/

/-- One operand of `operator<<` on a `std::ostream`, kept with its type: the text of the
stream is the concatenation of the standard renderings of its operands.  `stray` is a
`std::string` read by an unchecked `operator[]` past the end of its `std::vector`: the call
goes on with whatever lies there, a text about which nothing is known. -/
inductive Chunk (T : Type) where
  | text (s : String)
  | int (n : Int)
  | scalar (x : T)
  | matrix (m : Matrix T)
  | stray
deriving DecidableEq, Repr

/-- What a file-backed inspector does to the file system.  A stream is named by the file it
was opened on; `wrote` carries the operands inserted into it, in order. -/
inductive FsEvent (T : Type) where
  | opened (file : String)
  | wrote (file : String) (content : List (Chunk T))
  | closed (file : String)
deriving DecidableEq, Repr

/-! ## Transformation checkers (public mirror state only) -/

/-- The data members of `TransformationChecker`; `Vector` is a list of scalars. -/
structure TransformationChecker (T : Type) where
  limits : List T
  values : List T
  limitNames : List String
  valueNames : List String
deriving DecidableEq, Repr

/-- `TransformationCheckers` is `std::vector<TransformationChecker*>`. -/
abbrev TransformationCheckers (T : Type) := List (TransformationChecker T)

/-! ## `AbstractVTKInspector` -/

/-- `AbstractVTKInspector::padWithZeros(m, expectedRow, expectedCols)`. -/
def padWithZeros {T : Type} [Zero T] (m : Matrix T) (expectedRow expectedCols : Int) :
    Option (Matrix T) :=
  -- assert(m.cols() <= expectedCols || m.rows() <= expectedRow);
  if ¬ ((m.cols : Int) ≤ expectedCols ∨ (m.rows : Int) ≤ expectedRow) then none
  else if (m.cols : Int) = expectedCols ∧ (m.rows : Int) = expectedRow then some m
  else
    match (Matrix.Zero expectedRow expectedCols : Option (Matrix T)) with
    | none => none
    | some tmp => tmp.assignTopLeft m

/-- `AbstractVTKInspector::buildGenericAttributeStream`: the operands it inserts into the
stream (`attrib` is the parameter `attribute`). -/
def buildGenericAttributeStream {T : Type} [Zero T] (attrib nameTag : String)
    (cloud : DataPoints T) (forcedDim : Int) : Option (List (Chunk T)) :=
  match cloud.getDescriptorByName nameTag with
  | none => none
  | some desc =>
    -- assert(desc.rows() <= forcedDim);
    if ¬ ((desc.rows : Int) ≤ forcedDim) then none
    else if desc.rows ≠ 0 ∧ desc.rows ≠ 0 then
      match padWithZeros desc forcedDim desc.cols with
      | none => none
      | some padded =>
        some ([Chunk.text attrib, Chunk.text " ", Chunk.text nameTag, Chunk.text " float\n"]
          ++ (if attrib = "SCALARS" then [Chunk.text "LOOKUP_TABLE default\n"] else [])
          ++ [Chunk.matrix padded.transpose, Chunk.text "\n"])
    else some []

/-- `buildScalarStream(stream, name, cloud)`. -/
def buildScalarStream {T : Type} [Zero T] (name : String) (cloud : DataPoints T) :
    Option (List (Chunk T)) :=
  buildGenericAttributeStream "SCALARS" name cloud 1

/-- `buildNormalStream(stream, name, cloud)`. -/
def buildNormalStream {T : Type} [Zero T] (name : String) (cloud : DataPoints T) :
    Option (List (Chunk T)) :=
  buildGenericAttributeStream "NORMALS" name cloud 3

/-- `buildVectorStream(stream, name, cloud)`. -/
def buildVectorStream {T : Type} [Zero T] (name : String) (cloud : DataPoints T) :
    Option (List (Chunk T)) :=
  buildGenericAttributeStream "VECTORS" name cloud 3

/-- `buildTensorStream(stream, name, cloud)`. -/
def buildTensorStream {T : Type} [Zero T] (name : String) (cloud : DataPoints T) :
    Option (List (Chunk T)) :=
  buildGenericAttributeStream "TENSORS" name cloud 9

/-- The point coordinates as `dumpDataPoints` and `dumpDataLinks` print them: the first three
rows when there are four (the homogeneous row is dropped), every row otherwise; transposed. -/
def pointsBlock {T : Type} (dropHomogeneous : Bool) (features : Matrix T) : Option (Matrix T) :=
  if dropHomogeneous then
    (features.cornerTopLeft 3 features.cols).map Matrix.transpose
  else some features.transpose

/-- The loop `for (int i = 0; i < features.cols(); ++i) stream << "1 " << i << "\n";`. -/
def vertexRecords {T : Type} (count : Nat) : List (Chunk T) :=
  (List.range count).flatMap
    (fun i => [Chunk.text "1 ", Chunk.int (i : Int), Chunk.text "\n"])

/-- `AbstractVTKInspector::dumpDataPoints(data, stream)`: the operands inserted. -/
def dumpDataPoints {T : Type} [Zero T] (data : DataPoints T) : Option (List (Chunk T)) :=
  let features := data.features
  match pointsBlock (features.rows == 4) features with
  | none => none
  | some pts =>
    match buildScalarStream "densities" data with
    | none => none
    | some densities =>
      match buildNormalStream "normals" data with
      | none => none
      | some normals =>
        match buildVectorStream "eigValues" data with
        | none => none
        | some eigValues =>
          match buildTensorStream "eigVectors" data with
          | none => none
          | some eigVectors =>
            some ([Chunk.text "# vtk DataFile Version 3.0\n", Chunk.text "comment\n",
                Chunk.text "ASCII\n", Chunk.text "DATASET POLYDATA\n",
                Chunk.text "POINTS ", Chunk.int features.cols, Chunk.text " float\n",
                Chunk.matrix pts, Chunk.text "\n",
                Chunk.text "VERTICES 1 ", Chunk.int (wrapInt32 (features.cols * 2)),
                Chunk.text "\n"]
              ++ vertexRecords features.cols
              ++ [Chunk.text "POINT_DATA ", Chunk.int features.cols, Chunk.text "\n"]
              ++ densities ++ normals ++ eigValues ++ eigVectors)

/-- The loop of `dumpDataLinks` writing one line record per reading point. -/
def linkRecords {T : Type} (refPtCount : Int) (ids : Matrix Int) :
    List Nat → Option (List (Chunk T))
  | [] => some []
  | i :: rest =>
    match ids.coeff 0 i, linkRecords refPtCount ids rest with
    | some id, some tail =>
      some (Chunk.text "2 " :: Chunk.int (wrapInt32 (refPtCount + i)) :: Chunk.text " "
        :: Chunk.int id :: Chunk.text "\n" :: tail)
    | _, _ => none

/-- The loop of `dumpDataLinks` writing one outlier weight per reading point. -/
def outlierRecords {T : Type} (featureOutlierWeights : OutlierWeights T) :
    List Nat → Option (List (Chunk T))
  | [] => some []
  | i :: rest =>
    match featureOutlierWeights.coeff 0 i, outlierRecords featureOutlierWeights rest with
    | some w, some tail => some (Chunk.scalar w :: Chunk.text "\n" :: tail)
    | _, _ => none

/-- `AbstractVTKInspector::dumpDataLinks(ref, reading, matches, featureOutlierWeights, stream)`:
the operands inserted. -/
def dumpDataLinks {T : Type} (ref reading : DataPoints T) (matches_ : Matches T)
    (featureOutlierWeights : OutlierWeights T) : Option (List (Chunk T)) :=
  let refFeatures := ref.features
  let refPtCount : Int := refFeatures.cols
  let readingFeatures := reading.features
  let readingPtCount : Int := readingFeatures.cols
  let totalPtCount : Int := wrapInt32 (refPtCount + readingPtCount)
  match pointsBlock (refFeatures.rows == 4) refFeatures,
      pointsBlock (refFeatures.rows == 4) readingFeatures with
  | some refPts, some readingPts =>
    match linkRecords refPtCount matches_.ids (List.range readingFeatures.cols),
        outlierRecords featureOutlierWeights (List.range readingFeatures.cols) with
    | some links, some outliers =>
      some ([Chunk.text "# vtk DataFile Version 3.0\n", Chunk.text "comment\n",
          Chunk.text "ASCII\n", Chunk.text "DATASET POLYDATA\n",
          Chunk.text "POINTS ", Chunk.int totalPtCount, Chunk.text " float\n",
          Chunk.matrix refPts, Chunk.text "\n", Chunk.matrix readingPts, Chunk.text "\n",
          Chunk.text "LINES ", Chunk.int readingPtCount, Chunk.text " ",
          Chunk.int (wrapInt32 (readingPtCount * 3)), Chunk.text "\n"]
        ++ links
        ++ [Chunk.text "CELL_DATA ", Chunk.int readingPtCount, Chunk.text "\n",
          Chunk.text "SCALARS outlier float 1\n", Chunk.text "LOOKUP_TABLE default\n"]
        ++ outliers)
    | _, _ => none
  | _, _ => none

/-! ## `VTKFileInspector` -/

/-- `VTKFileInspector` with the member `streamIter` it inherits: `none` is the null pointer,
`some file` the stream opened on `file`. -/
structure VTKFileInspector where
  baseFileName : String
  streamIter : Option String
deriving DecidableEq, Repr

/-- The constructor `VTKFileInspector(baseFileName)`; `AbstractVTKInspector()` sets
`streamIter(0)`. -/
def VTKFileInspector.new (baseFileName : String) : VTKFileInspector := ⟨baseFileName, none⟩

/-- Name of the file `VTKFileInspector::init` opens. -/
def VTKFileInspector.iterationInfoName (insp : VTKFileInspector) : String :=
  insp.baseFileName ++ "-iterationInfo.csv"

/-- `VTKFileInspector::init()`: opens the CSV stream and stores it in `streamIter`. -/
def VTKFileInspector.init {T : Type} (insp : VTKFileInspector) :
    VTKFileInspector × List (FsEvent T) :=
  ({ insp with streamIter := some insp.iterationInfoName },
    [FsEvent.opened insp.iterationInfoName])

/-- Name of the file `VTKFileInspector::openStream(role)` opens. -/
def VTKFileInspector.openStream (insp : VTKFileInspector) (role : String) : String :=
  insp.baseFileName ++ "-" ++ role ++ ".vtk"

/-- Name of the file `VTKFileInspector::openStream(role, iterationCount)` opens. -/
def VTKFileInspector.openStreamIter (insp : VTKFileInspector) (role : String)
    (iterationCount : Nat) : String :=
  insp.baseFileName ++ "-" ++ role ++ "-" ++ toString iterationCount ++ ".vtk"

/-- Outcome of a call: the file-system events it caused, in order, and whether it returned
(`false`: a bounds check or an assertion failed on the way). -/
structure Run (T : Type) where
  events : List (FsEvent T)
  returned : Bool
deriving DecidableEq, Repr

/-- The operand `names[i]` of a `std::vector<std::string>`: `operator[]` checks nothing, so
an index past the end gives a stray operand and the call goes on. -/
def nameOperand {T : Type} (names : List String) (i : Nat) : Chunk T :=
  match names[i]? with
  | some s => Chunk.text s
  | none => Chunk.stray

/-- The header loops of `dumpIteration` over one checker: names of the values and limits.
The reads `valueNames[i]` and `limitNames[i]` are unchecked and never stop the call. -/
def headerFields {T : Type} (c : TransformationChecker T) : List Nat → Option (List (Chunk T))
  | [] => some []
  | i :: rest =>
    match headerFields c rest with
    | some tail =>
      some (nameOperand c.valueNames i :: Chunk.text ", " :: nameOperand c.limitNames i ::
        Chunk.text ", " :: tail)
    | none => none

/-- The data loops of `dumpIteration` over one checker: values and limits.  `values(i)` and
`limits(i)` are Eigen coefficient accesses, which check their index. -/
def dataFields {T : Type} (c : TransformationChecker T) : List Nat → Option (List (Chunk T))
  | [] => some []
  | i :: rest =>
    match c.values[i]?, c.limits[i]?, dataFields c rest with
    | some v, some l, some tail =>
      some (Chunk.scalar v :: Chunk.text ", " :: Chunk.scalar l :: Chunk.text ", " :: tail)
    | _, _, _ => none

/-- The outer loop `for j` of `dumpIteration`, for the header or for the data line. -/
def forEachChecker {T : Type}
    (fields : TransformationChecker T → List Nat → Option (List (Chunk T))) :
    TransformationCheckers T → Option (List (Chunk T))
  | [] => some []
  | c :: rest =>
    match fields c (List.range c.valueNames.length), forEachChecker fields rest with
    | some here, some tail => some (here ++ tail)
    | _, _ => none

/-- What `dumpIteration` inserts into `*streamIter`. -/
def iterationInfo {T : Type} (iterationCount : Nat) (transCheck : TransformationCheckers T) :
    Option (List (Chunk T)) :=
  let header : Option (List (Chunk T)) :=
    if iterationCount = 0 then
      (forEachChecker headerFields transCheck).map (fun h => h ++ [Chunk.text "\n"])
    else some []
  match header, forEachChecker dataFields transCheck with
  | some h, some d => some (h ++ d ++ [Chunk.text "\n"])
  | _, _ => none

/-- `AbstractVTKInspector::dumpIteration` on a `VTKFileInspector`, whose `openStream` and
`closeStream` it calls. -/
def AbstractVTKInspector.dumpIteration {T : Type} [Zero T] (insp : VTKFileInspector)
    (iterationCount : Nat) (_parameters : Matrix T) (filteredReference reading : DataPoints T)
    (matches_ : Matches T) (featureOutlierWeights _descriptorOutlierWeights : OutlierWeights T)
    (transCheck : TransformationCheckers T) : Run T :=
  let streamLinks := insp.openStreamIter "link" iterationCount
  match dumpDataLinks filteredReference reading matches_ featureOutlierWeights with
  | none => ⟨[FsEvent.opened streamLinks], false⟩
  | some links =>
    let doneLinks : List (FsEvent T) :=
      [FsEvent.opened streamLinks, FsEvent.wrote streamLinks links, FsEvent.closed streamLinks]
    let streamRead := insp.openStreamIter "reading" iterationCount
    match dumpDataPoints reading with
    | none => ⟨doneLinks ++ [FsEvent.opened streamRead], false⟩
    | some readingPoints =>
      let doneRead : List (FsEvent T) := doneLinks ++
        [FsEvent.opened streamRead, FsEvent.wrote streamRead readingPoints,
          FsEvent.closed streamRead]
      let streamRef := insp.openStreamIter "reference" iterationCount
      match dumpDataPoints filteredReference with
      | none => ⟨doneRead ++ [FsEvent.opened streamRef], false⟩
      | some referencePoints =>
        let doneRef : List (FsEvent T) := doneRead ++
          [FsEvent.opened streamRef, FsEvent.wrote streamRef referencePoints,
            FsEvent.closed streamRef]
        -- assert(streamIter);
        match insp.streamIter with
        | none => ⟨doneRef, false⟩
        | some streamIter =>
          match iterationInfo iterationCount transCheck with
          | none => ⟨doneRef, false⟩
          | some info => ⟨doneRef ++ [FsEvent.wrote streamIter info], true⟩

/-! ## The default `Inspector` -/

/-- `Inspector`: the base class has no data member, its state is a single value. -/
inductive Inspector where
  | base
deriving DecidableEq, Repr

/-- `Inspector::init()`: `{}`. -/
def Inspector.init {T : Type} (insp : Inspector) : Inspector × Run T :=
  (insp, ⟨[], true⟩)

/-- `Inspector::dumpFilteredReference(filteredReference)`: `{}`. -/
def Inspector.dumpFilteredReference {T : Type} (insp : Inspector)
    (_filteredReference : DataPoints T) : Inspector × Run T :=
  (insp, ⟨[], true⟩)

/-- `Inspector::dumpIteration(...)`: `{}`. -/
def Inspector.dumpIteration {T : Type} (insp : Inspector) (_iterationCount : Nat)
    (_parameters : Matrix T) (_filteredReference _reading : DataPoints T)
    (_matches : Matches T) (_featureOutlierWeights _descriptorOutlierWeights : OutlierWeights T)
    (_transformationCheckers : TransformationCheckers T) : Inspector × Run T :=
  (insp, ⟨[], true⟩)

/-- `Inspector::finish(iterationCount)`: `{}`. -/
def Inspector.finish {T : Type} (insp : Inspector) (_iterationCount : Nat) :
    Inspector × Run T :=
  (insp, ⟨[], true⟩)

/-! ## `Strategy` -/

/-- The abstract stage classes a strategy holds pointers to (the checkers apart, embedded
above by their data members). -/
inductive StageClass where
  | dataPointsFilter
  | transformation
  | matcher
  | featureOutlierFilter
  | descriptorOutlierFilter
  | errorMinimizer
  | inspector
deriving DecidableEq, Repr

/-- `Strategy`.  `Stage c` is the type of the objects of stage class `c`; a pointer member is
an `Option` (`none` is the null pointer), a vector of pointers a list. -/
structure Strategy (T : Type) (Stage : StageClass → Type) where
  readingDataPointsFilters : List (Stage StageClass.dataPointsFilter)
  referenceDataPointsFilters : List (Stage StageClass.dataPointsFilter)
  transformations : List (Stage StageClass.transformation)
  matcher : Option (Stage StageClass.matcher)
  featureOutlierFilters : List (Stage StageClass.featureOutlierFilter)
  descriptorOutlierFilter : Option (Stage StageClass.descriptorOutlierFilter)
  errorMinimizer : Option (Stage StageClass.errorMinimizer)
  transformationCheckers : TransformationCheckers T
  inspector : Option (Stage StageClass.inspector)
  outlierMixingWeight : T

/-- The constructor `Strategy()`: the four pointers are initialised to `0`, the weight to
`0.5` (one half, which `float` and `double` represent exactly), the vectors are
default-constructed. -/
def Strategy.new {T : Type} [DivisionRing T] {Stage : StageClass → Type} : Strategy T Stage :=
  { readingDataPointsFilters := []
    referenceDataPointsFilters := []
    transformations := []
    matcher := none
    featureOutlierFilters := []
    descriptorOutlierFilter := none
    errorMinimizer := none
    transformationCheckers := []
    inspector := none
    outlierMixingWeight := 1 / 2 }

/-! ## `SamplingSurfaceNormalDataPointsFilter::BuildData` -/

/-- `std::vector<int>`: its `size()` and the slots of its allocation (`capacity()` of them);
a slot never written is `none`.  The elements of the vector are the first `size` slots. -/
structure IntVector where
  size : Nat
  storage : List (Option Int)
deriving DecidableEq, Repr

/-- The default-constructed vector. -/
def IntVector.new : IntVector := ⟨0, []⟩

/-- `v.reserve(n)`: the allocation grows to `n` slots when it is smaller; `size()` is left as
it is. -/
def IntVector.reserve (v : IntVector) (n : Nat) : IntVector :=
  { v with storage := v.storage ++ List.replicate (n - v.storage.length) none }

/-- `v[i] = x`: `operator[]` checks nothing and does not change `size()`; the write lands in
slot `i` of the allocation, `none` when there is no such slot. -/
def IntVector.assignAt (v : IntVector) (i : Nat) (x : Int) : Option IntVector :=
  if i < v.storage.length then some { v with storage := v.storage.set i (some x) } else none

/-- The elements of the vector, `begin()` to `end()`. -/
def IntVector.elems (v : IntVector) : List Int :=
  (v.storage.take v.size).filterMap id

/-- `Matrix(rows, cols)`: allocated, coefficients not initialised (`none`); fails on a
negative dimension. -/
def Matrix.uninitialized {T : Type} (rows cols : Int) : Option (Matrix (Option T)) :=
  if 0 ≤ rows ∧ 0 ≤ cols then
    some ⟨rows.toNat, cols.toNat, List.replicate cols.toNat (List.replicate rows.toNat none)⟩
  else none

/-- `BuildData`. -/
structure BuildData (T : Type) where
  indices : IntVector
  inputFeatures : Matrix T
  inputDescriptors : Matrix T
  outputFeatures : Matrix (Option T)
  outputDescriptors : Matrix (Option T)
  outputInsertionPoint : Int
deriving DecidableEq, Repr

/-- The loop `for (int i = 0; i < pointsCount; ++i) indices[i] = i;`. -/
def fillIndices (v : IntVector) : List Nat → Option IntVector
  | [] => some v
  | i :: rest =>
    match v.assignAt i (i : Int) with
    | none => none
    | some w => fillIndices w rest

/-- The constructor `BuildData(inputFeatures, inputDescriptors, finalDescDim)`. -/
def BuildData.new {T : Type} (inputFeatures inputDescriptors : Matrix T) (finalDescDim : Int) :
    Option (BuildData T) :=
  match (Matrix.uninitialized inputFeatures.rows inputFeatures.cols : Option (Matrix (Option T))),
      (Matrix.uninitialized finalDescDim inputFeatures.cols : Option (Matrix (Option T))) with
  | some outputFeatures, some outputDescriptors =>
    let pointsCount := inputFeatures.cols
    -- indices.reserve(pointsCount);
    let reserved := IntVector.new.reserve pointsCount
    match fillIndices reserved (List.range pointsCount) with
    | none => none
    | some indices =>
      some ⟨indices, inputFeatures, inputDescriptors, outputFeatures, outputDescriptors, 0⟩
  | _, _ => none

/-! ## `SamplingSurfaceNormalDataPointsFilter::CompareDim` -/

/-- Coefficient access `m(r, c)` with `int` indices; `none` outside the matrix. -/
def Matrix.coeffAt {T : Type} (m : Matrix T) (r c : Int) : Option T :=
  if 0 ≤ r ∧ 0 ≤ c then m.coeff r.toNat c.toNat else none

/-- `CompareDim`: the dimension compared and the build data it reads. -/
structure CompareDim (T : Type) where
  dim : Int
  buildData : BuildData T

/-- `CompareDim::operator()(p0, p1)`:
`buildData.inputFeatures(dim, p0) < buildData.inputFeatures(dim, p1)`. -/
def CompareDim.call {T : Type} [LinearOrder T] (cmp : CompareDim T) (p0 p1 : Int) :
    Option Bool :=
  match cmp.buildData.inputFeatures.coeffAt cmp.dim p0,
      cmp.buildData.inputFeatures.coeffAt cmp.dim p1 with
  | some a, some b => some (decide (a < b))
  | _, _ => none

/-! ## Reference definitions for the statements -/

/-- The permitted roles of the per-iteration polydata files. -/
def iterationRoles : List String := ["link", "reading", "reference"]

/-- The header line of the iteration CSV: for each checker in list order and each index, the
value name then the limit name, each followed by `", "`; then the end of line. -/
def csvHeaderLine {T : Type} (transCheck : TransformationCheckers T) : List (Chunk T) :=
  transCheck.flatMap (fun c => (c.valueNames.zip c.limitNames).flatMap
    (fun p => [Chunk.text p.1, Chunk.text ", ", Chunk.text p.2, Chunk.text ", "]))
    ++ [Chunk.text "\n"]

/-- A data line of the iteration CSV: for each checker in list order and each index, the
value then the limit, each followed by `", "`; then the end of line. -/
def csvDataLine {T : Type} (transCheck : TransformationCheckers T) : List (Chunk T) :=
  transCheck.flatMap (fun c => (c.values.zip c.limits).flatMap
    (fun p => [Chunk.scalar p.1, Chunk.text ", ", Chunk.scalar p.2, Chunk.text ", "]))
    ++ [Chunk.text "\n"]

/-- Every checker of the list has `limitNames`, `values` and `limits` of the length of its
`valueNames`. -/
def ParallelLists {T : Type} (transCheck : TransformationCheckers T) : Prop :=
  ∀ c ∈ transCheck, c.limitNames.length = c.valueNames.length ∧
    c.values.length = c.valueNames.length ∧ c.limits.length = c.valueNames.length

instance {T : Type} (transCheck : TransformationCheckers T) : Decidable (ParallelLists transCheck) :=
  inferInstanceAs (Decidable (∀ c ∈ transCheck, c.limitNames.length = c.valueNames.length ∧
    c.values.length = c.valueNames.length ∧ c.limits.length = c.valueNames.length))

/-- Total number of value names of a list of checkers. -/
def valueNameCount {T : Type} (transCheck : TransformationCheckers T) : Nat :=
  (transCheck.map (fun c => c.valueNames.length)).sum

/-- The descriptors `dumpDataPoints` prints, each with the number of rows its attribute is
forced to: `buildScalarStream`, `buildNormalStream`, `buildVectorStream`,
`buildTensorStream`. -/
def dumpedDescriptors : List (String × Int) :=
  [("densities", 1), ("normals", 3), ("eigValues", 3), ("eigVectors", 9)]

/-- A cloud `dumpDataPoints` accepts: well-formed descriptors, label spans that fit the
descriptor rows, and no printed descriptor with more rows than its attribute holds. -/
def Dumpable {T : Type} (cloud : DataPoints T) : Prop :=
  cloud.descriptors.WF ∧ spanSum cloud.descriptorLabels ≤ cloud.descriptors.rows ∧
    ∀ p ∈ dumpedDescriptors, ∀ desc ∈ cloud.getDescriptorByName p.1, (desc.rows : Int) ≤ p.2

instance {T : Type} (cloud : DataPoints T) : Decidable (Dumpable cloud) :=
  inferInstanceAs (Decidable (cloud.descriptors.WF ∧
    spanSum cloud.descriptorLabels ≤ cloud.descriptors.rows ∧
    ∀ p ∈ dumpedDescriptors, ∀ desc ∈ cloud.getDescriptorByName p.1, (desc.rows : Int) ≤ p.2))

/-- The coefficients `m(0, i)` of a matrix, `i` in increasing order. -/
def Matrix.firstRow {T : Type} (m : Matrix T) : List T :=
  m.data.filterMap List.head?

/-- Vertical stacking of matrices of `cols` columns, the first on top. -/
def vstack {T : Type} (cols : Nat) : List (Matrix T) → Matrix T
  | [] => ⟨0, cols, List.replicate cols []⟩
  | m :: rest =>
    ⟨m.rows + (vstack cols rest).rows, cols,
      List.zipWith (fun a b => a ++ b) m.data (vstack cols rest).data⟩

/-- The row blocks of a matrix cut at the successive spans of a label list, from row `off`
on. -/
def rowBlocks {T : Type} (D : Matrix T) : Nat → Labels → List (Matrix T)
  | _, [] => []
  | off, l :: rest =>
    ⟨l.span, D.cols, D.data.map (fun col => (col.drop off).take l.span)⟩ ::
      rowBlocks D (off + l.span) rest

/-- Value of a list of decimal digit characters, most significant first. -/
def digitsValue (ds : List Char) : Nat :=
  ds.foldl (fun acc c => 10 * acc + (c.toNat - 48)) 0

/-- The pairs `(xs[i], ys[i])` for the indices of a list, `none` when an index is outside
one of the two lists. -/
def indexedPairs {α β : Type} (xs : List α) (ys : List β) : List Nat → Option (List (α × β))
  | [] => some []
  | i :: rest =>
    match xs[i]?, ys[i]?, indexedPairs xs ys rest with
    | some x, some y, some tail => some ((x, y) :: tail)
    | _, _, _ => none

/-! ## Concrete inputs -/

/-- A cloud of two points with three descriptor rows; two labels share the text `"b"`. -/
def sampleCloud : DataPoints Int :=
  DataPoints.new4 ⟨2, 2, [[0, 0], [1, 0]]⟩ [Label.new "xy" 2]
    ⟨3, 2, [[1, 2, 3], [4, 5, 6]]⟩ [Label.new "a" 1, Label.new "b" 1, Label.new "b" 1]

/-- A cloud whose only descriptor label claims three rows of an empty descriptor matrix. -/
def mislabelledCloud : DataPoints Int :=
  DataPoints.new4 Matrix.empty [] Matrix.empty [Label.new "normals" 3]

/-- A feature matrix of three rows and one column given without any label. -/
def unlabelledFeatures : Matrix Int := ⟨3, 1, [[1, 2, 3]]⟩

/-- A cloud of one planar point without descriptors. -/
def onePoint : DataPoints Int := DataPoints.new2 ⟨2, 1, [[0, 0]]⟩ [Label.new "xy" 2]

/-- Matches of one reading point with reference point `0`. -/
def oneMatch : Matches Int := ⟨⟨1, 1, [[0]]⟩, ⟨1, 1, [[0]]⟩⟩

/-- Weights of one match. -/
def oneWeight : OutlierWeights Int := ⟨1, 1, [[1]]⟩

/-- The matches a matcher that finds nothing returns: both matrices empty. -/
def noMatch : Matches Int := ⟨Matrix.empty, Matrix.empty⟩

/-- The inspector of the driver program after `init()`. -/
def testInspector : VTKFileInspector := ⟨"test", some "test-iterationInfo.csv"⟩

/-- Two checkers with parallel lists: a counter and an error checker. -/
def sampleCheckers : TransformationCheckers Int :=
  [⟨[60], [3], ["maxIterationCount"], ["iterationCount"]⟩,
    ⟨[1, 1], [5, 7], ["minDeltaRotErr", "minDeltaTransErr"],
      ["meanDeltaRotErr", "meanDeltaTransErr"]⟩]

/-- Input features of three planar points. -/
def threePoints : Matrix Int := ⟨2, 3, [[0, 0], [1, 0], [0, 1]]⟩

/-- A descriptor block of two rows and one column. -/
def tallBlock : Matrix Int := ⟨2, 1, [[1, 2]]⟩

/-- A reference of one point in three dimensions, with its homogeneous row. -/
def spacePoint : DataPoints Int := DataPoints.new2 ⟨4, 1, [[0, 0, 0, 1]]⟩ [Label.new "xyz" 4]

/-- A cloud of three points whose three descriptor rows carry two labels of distinct
texts. -/
def distinctCloud : DataPoints Int :=
  DataPoints.new4 threePoints [Label.new "xy" 2] ⟨3, 3, [[1, 2, 3], [4, 5, 6], [7, 8, 9]]⟩
    [Label.new "densities" 1, Label.new "normals" 2]

/-- A cloud of two planar points without descriptors. -/
def twoPoints : DataPoints Int :=
  DataPoints.new2 ⟨2, 2, [[0, 0], [1, 0]]⟩ [Label.new "xy" 2]

/-- A comparator along the first coordinate of `threePoints`. -/
def sampleCompare : CompareDim Int :=
  ⟨0, ⟨IntVector.new, threePoints, Matrix.empty, Matrix.empty, Matrix.empty, 0⟩⟩

/-- A cloud of two points with a two-row descriptor `normals`. -/
def normalsCloud : DataPoints Int :=
  DataPoints.new4 ⟨2, 2, [[0, 0], [1, 0]]⟩ [Label.new "xy" 2]
    ⟨3, 2, [[9, 1, 2], [8, 3, 4]]⟩ [Label.new "densities" 1, Label.new "normals" 2]

/-- A cloud of one point that satisfies the data-model invariant and carries a descriptor
`densities` of two rows. -/
def tallDens : DataPoints Int :=
  DataPoints.new4 ⟨2, 1, [[0, 0]]⟩ [Label.new "xy" 2] ⟨2, 1, [[1, 2]]⟩
    [Label.new "densities" 2]

/-! ## Lemmas on machine integers and label lists -/

theorem toInt32_of_lt {n : Nat} (h : n < 2147483648) : toInt32 n = (n : Int) := by
  unfold toInt32
  split <;> omega

theorem wrapInt32_of_range {x : Int} (h0 : -2147483648 ≤ x) (h1 : x < 2147483648) :
    wrapInt32 x = x := by
  unfold wrapInt32
  omega

theorem spanSum_cons (l : Label) (ls : Labels) : spanSum (l :: ls) = l.span + spanSum ls := by
  simp [spanSum]

theorem spanSum_append (xs ys : Labels) : spanSum (xs ++ ys) = spanSum xs + spanSum ys := by
  simp [spanSum]

/-- A list holding a label of a given text splits at the first such label. -/
theorem first_label_split (name : String) (ls : Labels) (h : ∃ l ∈ ls, l.text = name) :
    ∃ pre l post, ls = pre ++ l :: post ∧ (∀ p ∈ pre, p.text ≠ name) ∧ l.text = name := by
  induction ls with
  | nil =>
    obtain ⟨l, hl, _⟩ := h
    cases hl
  | cons x xs ih =>
    by_cases hx : x.text = name
    · exact ⟨[], x, xs, rfl, by simp, hx⟩
    · have h2 : ∃ l ∈ xs, l.text = name := by
        obtain ⟨l, hl, ht⟩ := h
        rcases List.mem_cons.mp hl with e | hm
        · exact absurd (e ▸ ht) hx
        · exact ⟨l, hm, ht⟩
      obtain ⟨pre, l, post, e, hpre, hl⟩ := ih h2
      refine ⟨x :: pre, l, post, by rw [e]; rfl, ?_, hl⟩
      intro p hp
      rcases List.mem_cons.mp hp with e2 | hm
      · exact e2 ▸ hx
      · exact hpre p hm

/-! ## Lemmas on `getDescriptorByName` -/

/-- The loop skips the labels of another text and stops at the first label of the text
looked up, `row` having grown by the spans skipped. -/
theorem getDescriptorByNameFrom_first {T : Type} (D : Matrix T) (name : String)
    (pre : Labels) (l : Label) (post : Labels) (row : Nat)
    (hpre : ∀ p ∈ pre, p.text ≠ name) (hl : l.text = name)
    (hb : row + spanSum pre + l.span < 2147483648) :
    getDescriptorByNameFrom D name (pre ++ l :: post) (row : Int) =
      D.block ((row + spanSum pre : Nat) : Int) 0 (l.span : Int) D.cols := by
  induction pre generalizing row with
  | nil =>
    simp only [spanSum, List.map_nil, List.sum_nil, Nat.add_zero, List.nil_append,
      getDescriptorByNameFrom, hl, if_true] at hb ⊢
    rw [toInt32_of_lt (by omega)]
  | cons p ps ih =>
    have hp : p.text ≠ name := hpre p (List.mem_cons_self _ _)
    rw [spanSum_cons] at hb
    have step : getDescriptorByNameFrom D name (p :: ps ++ l :: post) (row : Int) =
        getDescriptorByNameFrom D name (ps ++ l :: post)
          (wrapInt32 ((row : Int) + toInt32 p.span)) := by
      show getDescriptorByNameFrom D name (p :: (ps ++ l :: post)) (row : Int) = _
      rw [getDescriptorByNameFrom]
      simp only [hp, if_false]
    rw [step, toInt32_of_lt (by omega), wrapInt32_of_range (by omega) (by omega)]
    have := ih (row + p.span) (fun q hq => hpre q (List.mem_cons_of_mem _ hq)) (by omega)
    have e : ((row + p.span : Nat) : Int) = (row : Int) + (p.span : Int) := by push_cast; rfl
    rw [← e, this, spanSum_cons, Nat.add_assoc]

/-- The loop returns the default-constructed matrix when no label has the text. -/
theorem getDescriptorByNameFrom_absent {T : Type} (D : Matrix T) (name : String)
    (ls : Labels) (row : Int) (h : ∀ l ∈ ls, l.text ≠ name) :
    getDescriptorByNameFrom D name ls row = some Matrix.empty := by
  induction ls generalizing row with
  | nil => rfl
  | cons x xs ih =>
    have hx : x.text ≠ name := h x (List.mem_cons_self _ _)
    rw [getDescriptorByNameFrom]
    simp only [hx, if_false]
    exact ih _ (fun q hq => h q (List.mem_cons_of_mem _ hq))

/-- A block of whole rows inside a well-formed matrix exists and copies the coefficients. -/
theorem Matrix.block_rows_spec {T : Type} (D : Matrix T) (hwf : D.WF) (sr br : Nat)
    (h : sr + br ≤ D.rows) :
    ∃ m, D.block (sr : Int) 0 (br : Int) D.cols = some m ∧ m.rows = br ∧ m.cols = D.cols ∧
      ∀ r c, r < br → c < D.cols →
        ∃ v, D.coeff (sr + r) c = some v ∧ m.coeff r c = some v := by
  obtain ⟨hlen, hcol, _, _⟩ := hwf
  have hc : (0 : Int) ≤ sr ∧ (0 : Int) ≤ br ∧ (sr : Int) + br ≤ D.rows ∧ (0 : Int) ≤ 0 ∧
      (0 : Int) ≤ D.cols ∧ (0 : Int) + D.cols ≤ D.cols := by omega
  refine ⟨⟨br, D.cols, ((D.data.drop 0).take D.cols).map (fun col => (col.drop sr).take br)⟩,
    ?_, rfl, rfl, ?_⟩
  · simp only [Matrix.block, hc, and_self, if_true, Int.toNat_ofNat, Int.toNat_zero]
  intro r c hr hcc
  have hc2 : c < D.data.length := by omega
  have hcolc : (D.data[c]).length = D.rows := hcol _ (List.getElem_mem _)
  have hidx : sr + r < (D.data[c]).length := by omega
  refine ⟨(D.data[c])[sr + r], ?_, ?_⟩
  · have : sr + r < D.rows := by omega
    simp [Matrix.coeff, this, hcc, List.getElem?_eq_getElem hc2, List.getElem?_eq_getElem hidx]
  · simp [Matrix.coeff, hr, hcc, List.getElem?_take, List.getElem?_map, List.getElem?_drop,
      List.getElem?_eq_getElem hc2, List.getElem?_eq_getElem hidx]

/-- At the first label of the text looked up, the call is the block access of that label,
provided the spans up to it are `int` values. -/
theorem getDescriptorByName_eq_block {T : Type} (d : DataPoints T) (name : String)
    (pre : Labels) (l : Label) (post : Labels)
    (hsplit : d.descriptorLabels = pre ++ l :: post)
    (hpre : ∀ p ∈ pre, p.text ≠ name) (hl : l.text = name)
    (hb : spanSum pre + l.span < 2147483648) :
    d.getDescriptorByName name =
      d.descriptors.block (spanSum pre : Int) 0 (l.span : Int) d.descriptors.cols := by
  have key := getDescriptorByNameFrom_first d.descriptors name pre l post 0 hpre hl (by omega)
  unfold DataPoints.getDescriptorByName
  rw [hsplit]
  rw [Nat.zero_add] at key
  exact key

/-- Lookup of a text carried by a label, in a well-formed cloud whose spans fit the rows. -/
theorem getDescriptorByName_split {T : Type} (d : DataPoints T) (name : String)
    (pre : Labels) (l : Label) (post : Labels)
    (hwf : d.descriptors.WF) (hsum : spanSum d.descriptorLabels ≤ d.descriptors.rows)
    (hsplit : d.descriptorLabels = pre ++ l :: post)
    (hpre : ∀ p ∈ pre, p.text ≠ name) (hl : l.text = name) :
    ∃ m, d.getDescriptorByName name = some m ∧ m.rows = l.span ∧
      m.cols = d.descriptors.cols ∧
      ∀ r c, r < l.span → c < d.descriptors.cols →
        ∃ v, d.descriptors.coeff (spanSum pre + r) c = some v ∧ m.coeff r c = some v := by
  have hrows : d.descriptors.rows < 2147483648 := hwf.2.2.1
  rw [hsplit, spanSum_append, spanSum_cons] at hsum
  have key := getDescriptorByNameFrom_first d.descriptors name pre l post 0 hpre hl (by omega)
  obtain ⟨m, hm, h1, h2, h3⟩ :=
    Matrix.block_rows_spec d.descriptors hwf (spanSum pre) l.span (by omega)
  refine ⟨m, ?_, h1, h2, h3⟩
  unfold DataPoints.getDescriptorByName
  rw [hsplit]
  have z : ((0 : Nat) : Int) = 0 := rfl
  rw [← z, key, Nat.zero_add]
  exact hm

/-- The file name of `openStream(role, iterationCount)`, the role and its two dashes grouped. -/
theorem openStreamIter_name (insp : VTKFileInspector) (role : String) (i : Nat) :
    insp.openStreamIter role i =
      insp.baseFileName ++ ("-" ++ role ++ "-") ++ toString i ++ ".vtk" := by
  simp only [VTKFileInspector.openStreamIter, String.append_assoc]

/-! ## `getDescriptorByName` -/

/-- C1: in a well-formed cloud whose descriptor label spans sum to `descriptors.rows()`,
looking up a text carried by at least one label returns a matrix of `span` rows and
`descriptors.cols()` columns whose entry `(r, c)` is `descriptors(offset + r, c)`, where
`span` is that of the first label with the text and `offset` the sum of the spans before
it. -/
theorem getDescriptorByName_first_match {T : Type} (d : DataPoints T) (name : String)
    (hwf : d.descriptors.WF)
    (hsum : spanSum d.descriptorLabels = d.descriptors.rows)
    (hname : ∃ l ∈ d.descriptorLabels, l.text = name) :
    ∃ pre l post m, d.descriptorLabels = pre ++ l :: post ∧
      (∀ p ∈ pre, p.text ≠ name) ∧ l.text = name ∧
      d.getDescriptorByName name = some m ∧
      m.rows = l.span ∧ m.cols = d.descriptors.cols ∧
      ∀ r c, r < l.span → c < d.descriptors.cols →
        ∃ v, d.descriptors.coeff (spanSum pre + r) c = some v ∧ m.coeff r c = some v := by
  obtain ⟨pre, l, post, hsplit, hpre, hl⟩ := first_label_split name d.descriptorLabels hname
  obtain ⟨m, hm⟩ :=
    getDescriptorByName_split d name pre l post hwf (Nat.le_of_eq hsum) hsplit hpre hl
  exact ⟨pre, l, post, m, hsplit, hpre, hl, hm⟩

/-- Witness of C1 on `sampleCloud` and the text `"b"`, carried by two labels. -/
theorem getDescriptorByName_first_match_witness :
    sampleCloud.descriptors.WF ∧
    spanSum sampleCloud.descriptorLabels = sampleCloud.descriptors.rows ∧
    (∃ l ∈ sampleCloud.descriptorLabels, l.text = "b") ∧
    ∃ pre l post m, sampleCloud.descriptorLabels = pre ++ l :: post ∧
      (∀ p ∈ pre, p.text ≠ "b") ∧ l.text = "b" ∧
      sampleCloud.getDescriptorByName "b" = some m ∧
      m.rows = l.span ∧ m.cols = sampleCloud.descriptors.cols ∧
      ∀ r c, r < l.span → c < sampleCloud.descriptors.cols →
        ∃ v, sampleCloud.descriptors.coeff (spanSum pre + r) c = some v ∧
          m.coeff r c = some v :=
  ⟨by decide, by decide, ⟨Label.new "b" 1, by decide, by decide⟩,
    getDescriptorByName_first_match sampleCloud "b" (by decide) (by decide)
      ⟨Label.new "b" 1, by decide, by decide⟩⟩

/-- C2: looking up a text that no descriptor label carries returns the empty matrix, of no
row and no column, whatever the descriptors are. -/
theorem getDescriptorByName_absent {T : Type} (d : DataPoints T) (name : String)
    (h : ∀ l ∈ d.descriptorLabels, l.text ≠ name) :
    ∃ m, d.getDescriptorByName name = some m ∧ m = Matrix.empty ∧ m.rows = 0 ∧ m.cols = 0 :=
  ⟨Matrix.empty, getDescriptorByNameFrom_absent d.descriptors name d.descriptorLabels 0 h,
    rfl, rfl, rfl⟩

/-- Witness of C2 on `sampleCloud` and the absent text `"normals"`. -/
theorem getDescriptorByName_absent_witness :
    (∀ l ∈ sampleCloud.descriptorLabels, l.text ≠ "normals") ∧
    ∃ m, sampleCloud.getDescriptorByName "normals" = some m ∧ m = Matrix.empty ∧
      m.rows = 0 ∧ m.cols = 0 :=
  ⟨by decide, getDescriptorByName_absent sampleCloud "normals" (by decide)⟩

/-- Counterexample to C3: on a cloud whose label claims three rows of an empty descriptor
matrix, the block `(0, 0, 3, 0)` is outside the matrix and the call yields no matrix. -/
theorem getDescriptorByName_block_out_of_bounds :
    mislabelledCloud.descriptors.block 0 0 (toInt32 3) mislabelledCloud.descriptors.cols = none ∧
    mislabelledCloud.getDescriptorByName "normals" = none := by
  decide

/-- C3 as amended: in a well-formed cloud whose descriptor label spans sum to at most
`descriptors.rows()`, for every name the call returns a matrix; when a label carries the
name, that matrix is the block `descriptors.block(offset, 0, span, cols)` of the first such
label, and the block lies inside the descriptors: `offset + span ≤ descriptors.rows()`. -/
theorem getDescriptorByName_returns {T : Type} (d : DataPoints T) (name : String)
    (hwf : d.descriptors.WF)
    (hsum : spanSum d.descriptorLabels ≤ d.descriptors.rows) :
    ∃ m, d.getDescriptorByName name = some m ∧
      ∀ pre l post, d.descriptorLabels = pre ++ l :: post →
        (∀ p ∈ pre, p.text ≠ name) → l.text = name →
        d.descriptors.block (spanSum pre : Int) 0 (l.span : Int) d.descriptors.cols = some m ∧
          spanSum pre + l.span ≤ d.descriptors.rows := by
  have hrows : d.descriptors.rows < 2147483648 := hwf.2.2.1
  by_cases hname : ∃ l ∈ d.descriptorLabels, l.text = name
  · obtain ⟨pre, l, post, hsplit, hpre, hl⟩ := first_label_split name d.descriptorLabels hname
    obtain ⟨m, hm, _⟩ := getDescriptorByName_split d name pre l post hwf hsum hsplit hpre hl
    refine ⟨m, hm, ?_⟩
    intro pre2 l2 post2 hsplit2 hpre2 hl2
    have hfit : spanSum pre2 + l2.span ≤ d.descriptors.rows := by
      have h := hsum
      rw [hsplit2, spanSum_append, spanSum_cons] at h
      omega
    refine ⟨?_, hfit⟩
    rw [← getDescriptorByName_eq_block d name pre2 l2 post2 hsplit2 hpre2 hl2 (by omega)]
    exact hm
  · refine ⟨Matrix.empty, getDescriptorByNameFrom_absent d.descriptors name _ 0 ?_, ?_⟩
    · intro l hl ht
      exact hname ⟨l, hl, ht⟩
    · intro pre2 l2 post2 hsplit2 _ hl2
      exact absurd ⟨l2, by rw [hsplit2]; simp, hl2⟩ hname

/-- Witness of the amended C3 on `sampleCloud`. -/
theorem getDescriptorByName_returns_witness :
    sampleCloud.descriptors.WF ∧
    spanSum sampleCloud.descriptorLabels ≤ sampleCloud.descriptors.rows ∧
    ∃ m, sampleCloud.getDescriptorByName "b" = some m ∧
      ∀ pre l post, sampleCloud.descriptorLabels = pre ++ l :: post →
        (∀ p ∈ pre, p.text ≠ "b") → l.text = "b" →
        sampleCloud.descriptors.block (spanSum pre : Int) 0 (l.span : Int)
            sampleCloud.descriptors.cols = some m ∧
          spanSum pre + l.span ≤ sampleCloud.descriptors.rows :=
  ⟨by decide, by decide, getDescriptorByName_returns sampleCloud "b" (by decide) (by decide)⟩

/-! ## Constructors -/

/-- Counterexample to C4: the two-argument constructor accepts a three-row feature matrix
with an empty label list, and the cloud it builds breaks the invariant. -/
theorem new2_breaks_invariant : ¬ (DataPoints.new2 unlabelledFeatures []).Invariant := by
  decide

/-- C4 as amended: the default constructor builds a cloud satisfying the invariant; the
other two store their arguments unchanged, so the cloud satisfies the invariant exactly when
the arguments do (the two-argument one leaving the descriptors and their labels empty). -/
theorem constructors_invariant {T : Type} (features : Matrix T) (featureLabels : Labels)
    (descriptors : Matrix T) (descriptorLabels : Labels) :
    (DataPoints.new0 : DataPoints T).Invariant ∧
    ((DataPoints.new2 features featureLabels).Invariant ↔
      spanSum featureLabels = features.rows) ∧
    ((DataPoints.new4 features featureLabels descriptors descriptorLabels).Invariant ↔
      (spanSum featureLabels = features.rows ∧ spanSum descriptorLabels = descriptors.rows ∧
        (descriptors.rows = 0 ∨ descriptors.cols = features.cols))) ∧
    (DataPoints.new2 features featureLabels).features = features ∧
    (DataPoints.new2 features featureLabels).featureLabels = featureLabels ∧
    (DataPoints.new2 features featureLabels).descriptors = Matrix.empty ∧
    (DataPoints.new2 features featureLabels).descriptorLabels = [] ∧
    DataPoints.new4 features featureLabels descriptors descriptorLabels =
      ⟨features, featureLabels, descriptors, descriptorLabels⟩ := by
  refine ⟨?_, ?_, Iff.rfl, rfl, rfl, rfl, rfl, rfl⟩
  · simp [DataPoints.Invariant, DataPoints.new0, Matrix.empty, spanSum]
  · simp [DataPoints.Invariant, DataPoints.new2, Matrix.empty, spanSum]

/-- Counterexample to C5: the label built with the default arguments has the empty text and
span `0`. -/
theorem default_label_not_valid :
    Label.newDefault.text = "" ∧ Label.newDefault.span = 0 ∧ ¬ Label.newDefault.Valid := by
  decide

/-- C5 as amended: a label holds the text and the span its constructor was given, so it has a
non-empty text and a span of at least 1 exactly when the arguments are such. -/
theorem label_new_valid_iff (text : String) (span : Nat) :
    (Label.new text span).text = text ∧ (Label.new text span).span = span ∧
    ((Label.new text span).Valid ↔ (text ≠ "" ∧ 1 ≤ span)) :=
  ⟨rfl, rfl, Iff.rfl⟩

/-! ## `swapDataPoints`, `ErrorElements`, the identity filter -/

/-- C6: `swapDataPoints(a, b)` exchanges the four fields of the two clouds, and swapping
twice restores both. -/
theorem swapDataPoints_exchanges {T : Type} (a b : DataPoints T) :
    (swapDataPoints (a, b)).1.features = b.features ∧
    (swapDataPoints (a, b)).1.featureLabels = b.featureLabels ∧
    (swapDataPoints (a, b)).1.descriptors = b.descriptors ∧
    (swapDataPoints (a, b)).1.descriptorLabels = b.descriptorLabels ∧
    (swapDataPoints (a, b)).2.features = a.features ∧
    (swapDataPoints (a, b)).2.featureLabels = a.featureLabels ∧
    (swapDataPoints (a, b)).2.descriptors = a.descriptors ∧
    (swapDataPoints (a, b)).2.descriptorLabels = a.descriptorLabels ∧
    swapDataPoints (swapDataPoints (a, b)) = (a, b) :=
  ⟨rfl, rfl, rfl, rfl, rfl, rfl, rfl, rfl, rfl⟩

/-- C7: the constructor of `ErrorElements` passes its assertions exactly when the reading
features, the reference features, the weights and the match distances have the same number
of columns; it then stores its four arguments, so the reading and reference clouds of the
value built have the same number of columns. -/
theorem errorElements_new_spec {T : Type} (reading reference : DataPoints T)
    (weights : OutlierWeights T) (matches_ : Matches T) :
    ((ErrorElements.new reading reference weights matches_).isSome = true ↔
      (reading.features.cols = reference.features.cols ∧
        reading.features.cols = weights.cols ∧
        reading.features.cols = matches_.dists.cols)) ∧
    ∀ e, ErrorElements.new reading reference weights matches_ = some e →
      e.reading = reading ∧ e.reference = reference ∧ e.weights = weights ∧
      e.matches_ = matches_ ∧
      e.reading.features.cols = e.reference.features.cols ∧
      e.reading.features.cols = e.weights.cols ∧
      e.reading.features.cols = e.matches_.dists.cols := by
  unfold ErrorElements.new
  split_ifs with h1 h2 h3
  · exact ⟨⟨fun h => (by cases h), fun h => absurd h.1 h1⟩, fun e he => (by cases he)⟩
  · exact ⟨⟨fun h => (by cases h), fun h => absurd h.2.1 h2⟩, fun e he => (by cases he)⟩
  · exact ⟨⟨fun h => (by cases h), fun h => absurd h.2.2 h3⟩, fun e he => (by cases he)⟩
  · have e1 : reading.features.cols = reference.features.cols := not_not.mp h1
    have e2 : reading.features.cols = weights.cols := not_not.mp h2
    have e3 : reading.features.cols = matches_.dists.cols := not_not.mp h3
    refine ⟨⟨fun _ => ⟨e1, e2, e3⟩, fun _ => rfl⟩, ?_⟩
    intro e he
    cases he
    exact ⟨rfl, rfl, rfl, rfl, e1, e2, e3⟩

/-- Witness of C7 on a reading and a reference of one point each. -/
theorem errorElements_new_spec_witness :
    ErrorElements.new onePoint onePoint oneWeight oneMatch =
      some ⟨onePoint, onePoint, oneWeight, oneMatch⟩ ∧
    (ErrorElements.mk onePoint onePoint oneWeight oneMatch).reading.features.cols =
      (ErrorElements.mk onePoint onePoint oneWeight oneMatch).reference.features.cols :=
  ⟨by decide,
    ((errorElements_new_spec onePoint onePoint oneWeight oneMatch).2
      ⟨onePoint, onePoint, oneWeight, oneMatch⟩ (by decide)).2.2.2.2.1⟩

/-- C8: the step filter of the identity filter returns its input cloud, equal in all four
fields, and leaves the iterate flag as it was. -/
theorem identity_stepFilter_unchanged {T : Type} (input : DataPoints T) (iterate : Bool) :
    (IdentityDataPointsFilter.stepFilter input iterate).1 = input ∧
    (IdentityDataPointsFilter.stepFilter input iterate).1.features = input.features ∧
    (IdentityDataPointsFilter.stepFilter input iterate).1.featureLabels =
      input.featureLabels ∧
    (IdentityDataPointsFilter.stepFilter input iterate).1.descriptors = input.descriptors ∧
    (IdentityDataPointsFilter.stepFilter input iterate).1.descriptorLabels =
      input.descriptorLabels ∧
    (IdentityDataPointsFilter.stepFilter input iterate).2 = iterate :=
  ⟨rfl, rfl, rfl, rfl, rfl, rfl⟩


/-! ## `dumpIteration` -/

/-- Counterexample to C10: with the empty matches of a matcher that found nothing and a
reading of one point, `dumpDataLinks` reads `matches.ids(0, 0)` outside the matrix; the call
has opened `test-link-0.vtk` only and does not return. -/
theorem dumpIteration_aborts_in_links :
    AbstractVTKInspector.dumpIteration testInspector 0 Matrix.empty onePoint onePoint noMatch
      oneWeight oneWeight [] = ⟨[FsEvent.opened "test-link-0.vtk"], false⟩ := by
  decide

/-- C10 as amended: when `dumpDataLinks` and the two `dumpDataPoints` of a call
`dumpIteration(i, ...)` complete, the call opens, writes and closes exactly three polydata
streams, `B-link-i.vtk`, `B-reading-i.vtk` and `B-reference-i.vtk` in this order, each closed
before the next is opened; whatever follows is written to the stream `streamIter`. -/
theorem dumpIteration_three_streams {T : Type} [Zero T] (insp : VTKFileInspector)
    (iterationCount : Nat) (parameters : Matrix T) (filteredReference reading : DataPoints T)
    (matches_ : Matches T) (featureOutlierWeights descriptorOutlierWeights : OutlierWeights T)
    (transCheck : TransformationCheckers T)
    (hl : (dumpDataLinks filteredReference reading matches_ featureOutlierWeights).isSome = true)
    (hr : (dumpDataPoints reading).isSome = true)
    (hq : (dumpDataPoints filteredReference).isSome = true) :
    ∃ links readingPoints referencePoints rest,
      dumpDataLinks filteredReference reading matches_ featureOutlierWeights = some links ∧
      dumpDataPoints reading = some readingPoints ∧
      dumpDataPoints filteredReference = some referencePoints ∧
      (AbstractVTKInspector.dumpIteration insp iterationCount parameters filteredReference
        reading matches_ featureOutlierWeights descriptorOutlierWeights transCheck).events =
        [FsEvent.opened (insp.baseFileName ++ "-link-" ++ toString iterationCount ++ ".vtk"),
          FsEvent.wrote (insp.baseFileName ++ "-link-" ++ toString iterationCount ++ ".vtk")
            links,
          FsEvent.closed (insp.baseFileName ++ "-link-" ++ toString iterationCount ++ ".vtk"),
          FsEvent.opened (insp.baseFileName ++ "-reading-" ++ toString iterationCount ++ ".vtk"),
          FsEvent.wrote (insp.baseFileName ++ "-reading-" ++ toString iterationCount ++ ".vtk")
            readingPoints,
          FsEvent.closed (insp.baseFileName ++ "-reading-" ++ toString iterationCount ++ ".vtk"),
          FsEvent.opened
            (insp.baseFileName ++ "-reference-" ++ toString iterationCount ++ ".vtk"),
          FsEvent.wrote
            (insp.baseFileName ++ "-reference-" ++ toString iterationCount ++ ".vtk")
            referencePoints,
          FsEvent.closed
            (insp.baseFileName ++ "-reference-" ++ toString iterationCount ++ ".vtk")]
          ++ rest ∧
      ∀ e ∈ rest, ∃ file content, e = FsEvent.wrote file content ∧
        insp.streamIter = some file := by
  obtain ⟨links, hl⟩ := Option.isSome_iff_exists.mp hl
  obtain ⟨rd, hr⟩ := Option.isSome_iff_exists.mp hr
  obtain ⟨rf, hq⟩ := Option.isSome_iff_exists.mp hq
  have n1 := openStreamIter_name insp "link" iterationCount
  have n2 := openStreamIter_name insp "reading" iterationCount
  have n3 := openStreamIter_name insp "reference" iterationCount
  have c1 : "-" ++ "link" ++ "-" = "-link-" := by decide
  have c2 : "-" ++ "reading" ++ "-" = "-reading-" := by decide
  have c3 : "-" ++ "reference" ++ "-" = "-reference-" := by decide
  rw [c1] at n1
  rw [c2] at n2
  rw [c3] at n3
  unfold AbstractVTKInspector.dumpIteration
  simp only [hl, hr, hq, n1, n2, n3]
  cases hs : insp.streamIter with
  | none => exact ⟨links, rd, rf, [], rfl, rfl, rfl, by simp, by simp⟩
  | some csv =>
    cases hi : iterationInfo iterationCount transCheck with
    | none => exact ⟨links, rd, rf, [], rfl, rfl, rfl, by simp, by simp⟩
    | some info =>
      exact ⟨links, rd, rf, [FsEvent.wrote csv info], rfl, rfl, rfl, by simp,
        by simp⟩

/-- Witness of the amended C10: iteration 7 of the inspector `test` on clouds of one point. -/
theorem dumpIteration_three_streams_witness :
    (dumpDataLinks onePoint onePoint oneMatch oneWeight).isSome = true ∧
    (dumpDataPoints onePoint).isSome = true ∧
    ∃ links readingPoints referencePoints rest,
      dumpDataLinks onePoint onePoint oneMatch oneWeight = some links ∧
      dumpDataPoints onePoint = some readingPoints ∧
      dumpDataPoints onePoint = some referencePoints ∧
      (AbstractVTKInspector.dumpIteration testInspector 7 Matrix.empty onePoint
        onePoint oneMatch oneWeight oneWeight []).events =
        [FsEvent.opened (testInspector.baseFileName ++ "-link-" ++ toString 7 ++ ".vtk"),
          FsEvent.wrote (testInspector.baseFileName ++ "-link-" ++ toString 7 ++ ".vtk")
            links,
          FsEvent.closed (testInspector.baseFileName ++ "-link-" ++ toString 7 ++ ".vtk"),
          FsEvent.opened (testInspector.baseFileName ++ "-reading-" ++ toString 7 ++ ".vtk"),
          FsEvent.wrote (testInspector.baseFileName ++ "-reading-" ++ toString 7 ++ ".vtk")
            readingPoints,
          FsEvent.closed (testInspector.baseFileName ++ "-reading-" ++ toString 7 ++ ".vtk"),
          FsEvent.opened
            (testInspector.baseFileName ++ "-reference-" ++ toString 7 ++ ".vtk"),
          FsEvent.wrote
            (testInspector.baseFileName ++ "-reference-" ++ toString 7 ++ ".vtk")
            referencePoints,
          FsEvent.closed
            (testInspector.baseFileName ++ "-reference-" ++ toString 7 ++ ".vtk")]
          ++ rest ∧
      ∀ e ∈ rest, ∃ file content, e = FsEvent.wrote file content ∧
        testInspector.streamIter = some file :=
  ⟨by decide, by decide,
    dumpIteration_three_streams testInspector 7 Matrix.empty onePoint onePoint oneMatch
      oneWeight oneWeight [] (by decide) (by decide) (by decide)⟩

/-! ## File names -/

/-- A decimal digit character has the value of its digit. -/
theorem digitChar_value (d : Nat) (h : d < 10) : (Nat.digitChar d).toNat - 48 = d := by
  interval_cases d <;> rfl

/-- Reading the digits written by `Nat.toDigitsCore` continues from the number written. -/
theorem toDigitsCore_foldl (fuel : Nat) : ∀ (n : Nat) (ds : List Char), n < fuel →
    (Nat.toDigitsCore 10 fuel n ds).foldl (fun acc c => 10 * acc + (c.toNat - 48)) 0 =
      ds.foldl (fun acc c => 10 * acc + (c.toNat - 48)) n := by
  induction fuel with
  | zero => intro n ds h; omega
  | succ fuel ih =>
    intro n ds h
    unfold Nat.toDigitsCore
    have hd : (Nat.digitChar (n % 10)).toNat - 48 = n % 10 :=
      digitChar_value _ (Nat.mod_lt _ (by decide))
    by_cases h0 : n / 10 = 0
    · simp only [h0, if_true, List.foldl_cons, Nat.mul_zero, Nat.zero_add, hd]
      have : n % 10 = n := by omega
      rw [this]
    · simp only [h0, if_false]
      rw [ih (n / 10) _ (by omega)]
      simp only [List.foldl_cons, hd]
      have : 10 * (n / 10) + n % 10 = n := by omega
      rw [this]

/-- The decimal rendering of a number reads back as the number. -/
theorem digitsValue_toDigits (n : Nat) : digitsValue (Nat.toDigits 10 n) = n := by
  unfold digitsValue Nat.toDigits
  rw [toDigitsCore_foldl (n + 1) n [] (by omega)]
  rfl

/-- The characters of the file name of `openStream(role, iterationCount)`. -/
theorem openStreamIter_data (insp : VTKFileInspector) (role : String) (i : Nat) :
    (insp.openStreamIter role i).data =
      insp.baseFileName.data ++
        ('-' :: (role.data ++ ('-' :: (Nat.toDigits 10 i ++ ['.', 'v', 't', 'k'])))) := by
  simp [VTKFileInspector.openStreamIter, String.data_append, toString, Nat.repr, List.asString]

/-- C11: for a fixed base file name, the file name of `openStream(role, iterationCount)` is
injective on the pairs of a role among link, reading, reference and an iteration count, and
is never the name of the iteration CSV. -/
theorem openStreamIter_injective (insp : VTKFileInspector) (role1 role2 : String) (i j : Nat)
    (h1 : role1 ∈ iterationRoles) (h2 : role2 ∈ iterationRoles) :
    (insp.openStreamIter role1 i = insp.openStreamIter role2 j → role1 = role2 ∧ i = j) ∧
    insp.openStreamIter role1 i ≠ insp.iterationInfoName := by
  simp only [iterationRoles, List.mem_cons, List.mem_singleton, List.not_mem_nil,
    or_false] at h1 h2
  constructor
  · intro h
    have hd := congrArg String.data h
    rw [openStreamIter_data, openStreamIter_data] at hd
    have hd2 := List.append_cancel_left hd
    rcases h1 with rfl | rfl | rfl <;> rcases h2 with rfl | rfl | rfl <;>
      simp at hd2 <;>
      (refine ⟨rfl, ?_⟩
       have e : Nat.toDigits 10 i = Nat.toDigits 10 j := hd2
       have := congrArg digitsValue e
       rwa [digitsValue_toDigits, digitsValue_toDigits] at this)
  · intro h
    have hd := congrArg String.data h
    rw [openStreamIter_data] at hd
    simp only [VTKFileInspector.iterationInfoName, String.data_append] at hd
    have hd2 := List.append_cancel_left hd
    rcases h1 with rfl | rfl | rfl <;> simp at hd2

/-- Witness of C11: the link file of iteration 3 and the reading file of iteration 3. -/
theorem openStreamIter_injective_witness :
    "link" ∈ iterationRoles ∧ "reading" ∈ iterationRoles ∧
    (testInspector.openStreamIter "link" 3 = testInspector.openStreamIter "reading" 3 →
      "link" = "reading" ∧ 3 = 3) ∧
    testInspector.openStreamIter "link" 3 ≠ testInspector.iterationInfoName :=
  ⟨by decide, by decide,
    openStreamIter_injective testInspector "link" "reading" 3 3 (by decide) (by decide)⟩

/-! ## The iteration CSV -/

/-- Over the indices from `k` on, the pairs by index are the zipped tails of the lists. -/
theorem indexedPairs_range {α β : Type} (xs : List α) (ys : List β) (m : Nat) :
    ∀ k, k + m = xs.length → k + m = ys.length →
      indexedPairs xs ys (List.range' k m) = some ((xs.drop k).zip (ys.drop k)) := by
  induction m with
  | zero =>
    intro k hx hy
    have e1 : xs.drop k = [] := List.drop_eq_nil_of_le (by omega)
    simp [indexedPairs, e1]
  | succ m ih =>
    intro k hx hy
    have hkx : k < xs.length := by omega
    have hky : k < ys.length := by omega
    have e1 : xs.drop k = xs[k] :: xs.drop (k + 1) := List.drop_eq_getElem_cons hkx
    have e2 : ys.drop k = ys[k] :: ys.drop (k + 1) := List.drop_eq_getElem_cons hky
    have r : List.range' k (m + 1) = k :: List.range' (k + 1) m := by
      simp [List.range'_succ]
    rw [r, indexedPairs, ih (k + 1) (by omega) (by omega), e1, e2,
      List.getElem?_eq_getElem hkx, List.getElem?_eq_getElem hky]
    rfl

/-- The header loop over one checker renders the pairs by index, when every index is inside
both lists of names. -/
theorem headerFields_eq {T : Type} (c : TransformationChecker T) (is : List Nat) :
    ∀ ps, indexedPairs c.valueNames c.limitNames is = some ps →
      headerFields c is = some (ps.flatMap
        (fun p => [(Chunk.text p.1 : Chunk T), Chunk.text ", ", Chunk.text p.2,
          Chunk.text ", "])) := by
  induction is with
  | nil =>
    intro ps h
    cases h
    rfl
  | cons i rest ih =>
    intro ps h
    rw [indexedPairs] at h
    cases hv : c.valueNames[i]? with
    | none => simp [hv] at h
    | some v =>
      cases hl : c.limitNames[i]? with
      | none => simp [hv, hl] at h
      | some l =>
        cases ht : indexedPairs c.valueNames c.limitNames rest with
        | none => simp [hv, hl, ht] at h
        | some tail =>
          simp only [hv, hl, ht, Option.some.injEq] at h
          subst h
          rw [headerFields, ih tail ht]
          simp [nameOperand, hv, hl]

/-- The data loop over one checker renders the pairs by index. -/
theorem dataFields_eq {T : Type} (c : TransformationChecker T) (is : List Nat) :
    dataFields c is = (indexedPairs c.values c.limits is).map
      (fun ps => ps.flatMap
        (fun p => [(Chunk.scalar p.1 : Chunk T), Chunk.text ", ", Chunk.scalar p.2,
          Chunk.text ", "])) := by
  induction is with
  | nil => rfl
  | cons i rest ih =>
    rw [dataFields, indexedPairs, ih]
    cases c.values[i]? <;> cases c.limits[i]? <;>
      cases indexedPairs c.values c.limits rest <;> rfl

/-- With parallel lists the header loops write the header fields of the checkers. -/
theorem forEachChecker_header {T : Type} (transCheck : TransformationCheckers T)
    (h : ParallelLists transCheck) :
    forEachChecker headerFields transCheck =
      some (transCheck.flatMap (fun c => (c.valueNames.zip c.limitNames).flatMap
        (fun p => [(Chunk.text p.1 : Chunk T), Chunk.text ", ", Chunk.text p.2,
          Chunk.text ", "]))) := by
  induction transCheck with
  | nil => rfl
  | cons c rest ih =>
    have hc := h c (List.mem_cons_self _ _)
    have hrest : ParallelLists rest := fun d hd => h d (List.mem_cons_of_mem _ hd)
    have hp := indexedPairs_range c.valueNames c.limitNames c.valueNames.length 0 (by omega)
      (by omega)
    rw [← List.range_eq_range'] at hp
    rw [forEachChecker, ih hrest, headerFields_eq c _ _ hp]
    simp

/-- With parallel lists the data loops write the data fields of the checkers. -/
theorem forEachChecker_data {T : Type} (transCheck : TransformationCheckers T)
    (h : ParallelLists transCheck) :
    forEachChecker dataFields transCheck =
      some (transCheck.flatMap (fun c => (c.values.zip c.limits).flatMap
        (fun p => [(Chunk.scalar p.1 : Chunk T), Chunk.text ", ", Chunk.scalar p.2,
          Chunk.text ", "]))) := by
  induction transCheck with
  | nil => rfl
  | cons c rest ih =>
    have hc := h c (List.mem_cons_self _ _)
    have hrest : ParallelLists rest := fun d hd => h d (List.mem_cons_of_mem _ hd)
    rw [forEachChecker, ih hrest, dataFields_eq, List.range_eq_range',
      indexedPairs_range _ _ _ 0 (by omega) (by omega)]
    simp

/-- With parallel lists `dumpIteration` inserts the header line on iteration 0 only, then the
data line. -/
theorem iterationInfo_eq {T : Type} (iterationCount : Nat)
    (transCheck : TransformationCheckers T) (h : ParallelLists transCheck) :
    iterationInfo iterationCount transCheck =
      some ((if iterationCount = 0 then csvHeaderLine transCheck else []) ++
        csvDataLine transCheck) := by
  unfold iterationInfo csvHeaderLine csvDataLine
  rw [forEachChecker_header transCheck h, forEachChecker_data transCheck h]
  by_cases h0 : iterationCount = 0 <;> simp [h0]

/-- Length of a concatenation of pieces of one length. -/
theorem flatMap_length_const {α γ : Type} (f : α → List γ) (n : Nat)
    (hf : ∀ a, (f a).length = n) (l : List α) : (l.flatMap f).length = n * l.length := by
  induction l with
  | nil => simp
  | cons a rest ih =>
    simp only [List.flatMap_cons, List.length_append, hf, ih, List.length_cons]
    rw [Nat.mul_succ]
    omega

/-- Number of operands of the header line. -/
theorem csvHeaderLine_length {T : Type} (transCheck : TransformationCheckers T)
    (h : ParallelLists transCheck) :
    (csvHeaderLine transCheck).length = 2 * (2 * valueNameCount transCheck) + 1 := by
  unfold csvHeaderLine valueNameCount
  induction transCheck with
  | nil => rfl
  | cons c rest ih =>
    have hc := h c (List.mem_cons_self _ _)
    have hrest : ParallelLists rest := fun d hd => h d (List.mem_cons_of_mem _ hd)
    have := ih hrest
    simp only [List.flatMap_cons, List.length_append, List.map_cons, List.sum_cons,
      List.length_singleton] at this ⊢
    have e : ((c.valueNames.zip c.limitNames).flatMap
        (fun p => [(Chunk.text p.1 : Chunk T), Chunk.text ", ", Chunk.text p.2,
          Chunk.text ", "])).length = 4 * c.valueNames.length := by
      rw [flatMap_length_const (fun p : String × String =>
          [(Chunk.text p.1 : Chunk T), Chunk.text ", ", Chunk.text p.2, Chunk.text ", "]) 4
          (fun _ => rfl), List.length_zip, hc.1, Nat.min_self]
    omega

/-- Number of operands of a data line. -/
theorem csvDataLine_length {T : Type} (transCheck : TransformationCheckers T)
    (h : ParallelLists transCheck) :
    (csvDataLine transCheck).length = 2 * (2 * valueNameCount transCheck) + 1 := by
  unfold csvDataLine valueNameCount
  induction transCheck with
  | nil => rfl
  | cons c rest ih =>
    have hc := h c (List.mem_cons_self _ _)
    have hrest : ParallelLists rest := fun d hd => h d (List.mem_cons_of_mem _ hd)
    have := ih hrest
    simp only [List.flatMap_cons, List.length_append, List.map_cons, List.sum_cons,
      List.length_singleton] at this ⊢
    have e : ((c.values.zip c.limits).flatMap
        (fun p => [(Chunk.scalar p.1 : Chunk T), Chunk.text ", ", Chunk.scalar p.2,
          Chunk.text ", "])).length = 4 * c.valueNames.length := by
      rw [flatMap_length_const (fun p : T × T =>
          [(Chunk.scalar p.1 : Chunk T), Chunk.text ", ", Chunk.scalar p.2, Chunk.text ", "]) 4
          (fun _ => rfl), List.length_zip, hc.2.1, hc.2.2, Nat.min_self]
    omega
/-! ## Failing in `dumpIteration`, the default inspector, the default strategy -/

/-- Counterexample to C13: on an inspector on which `init()` was not called, a call with
well-formed arguments writes its three polydata files, then fails `assert(streamIter)`; on the
inspector of the driver after `init()`, a call with the empty matches of a matcher that found
nothing stops in `dumpDataLinks`. -/
theorem dumpIteration_without_init_fails :
    (VTKFileInspector.new "test").streamIter = none ∧
    (AbstractVTKInspector.dumpIteration (VTKFileInspector.new "test") 0 Matrix.empty onePoint
      onePoint oneMatch oneWeight oneWeight sampleCheckers).returned = false ∧
    (AbstractVTKInspector.dumpIteration (VTKFileInspector.new "test") 0 Matrix.empty onePoint
      onePoint oneMatch oneWeight oneWeight sampleCheckers).events.length = 9 ∧
    (AbstractVTKInspector.dumpIteration testInspector 0 Matrix.empty onePoint
      onePoint noMatch oneWeight oneWeight sampleCheckers).returned = false := by
  decide

/-- C14: the four operations of the default inspector write nothing, return, and leave the
inspector as it was; their other arguments are passed by constant reference. -/
theorem inspector_noop {T : Type} (insp : Inspector) (iterationCount : Nat)
    (parameters : Matrix T) (filteredReference reading : DataPoints T) (matches_ : Matches T)
    (featureOutlierWeights descriptorOutlierWeights : OutlierWeights T)
    (transformationCheckers : TransformationCheckers T) :
    (Inspector.init insp : Inspector × Run T) = (insp, ⟨[], true⟩) ∧
    Inspector.dumpFilteredReference insp filteredReference = (insp, ⟨[], true⟩) ∧
    Inspector.dumpIteration insp iterationCount parameters filteredReference reading matches_
      featureOutlierWeights descriptorOutlierWeights transformationCheckers =
      (insp, ⟨[], true⟩) ∧
    (Inspector.finish insp iterationCount : Inspector × Run T) = (insp, ⟨[], true⟩) :=
  ⟨rfl, rfl, rfl, rfl⟩

/-- C15: a default-constructed strategy has `outlierMixingWeight` one half, inside `[0, 1]`,
four null pointers and five empty sequences. -/
theorem strategy_new_default {T : Type} [LinearOrderedField T] {Stage : StageClass → Type} :
    (Strategy.new : Strategy T Stage).outlierMixingWeight = 1 / 2 ∧
    0 ≤ (Strategy.new : Strategy T Stage).outlierMixingWeight ∧
    (Strategy.new : Strategy T Stage).outlierMixingWeight ≤ 1 ∧
    (Strategy.new : Strategy T Stage).matcher = none ∧
    (Strategy.new : Strategy T Stage).descriptorOutlierFilter = none ∧
    (Strategy.new : Strategy T Stage).errorMinimizer = none ∧
    (Strategy.new : Strategy T Stage).inspector = none ∧
    (Strategy.new : Strategy T Stage).readingDataPointsFilters = [] ∧
    (Strategy.new : Strategy T Stage).referenceDataPointsFilters = [] ∧
    (Strategy.new : Strategy T Stage).transformations = [] ∧
    (Strategy.new : Strategy T Stage).featureOutlierFilters = [] ∧
    (Strategy.new : Strategy T Stage).transformationCheckers = [] := by
  refine ⟨rfl, ?_, ?_, rfl, rfl, rfl, rfl, rfl, rfl, rfl, rfl, rfl⟩
  · show (0 : T) ≤ 1 / 2
    positivity
  · show (1 : T) / 2 ≤ 1
    exact half_le_self (zero_le_one : (0 : T) ≤ 1)

/-! ## `BuildData` -/

/-- Evaluation for C16: built over three points, `indices` has size `0` and no element; the
values `0, 1, 2` sit in the reserved slots beyond its end.  The other members are as
claimed. -/
theorem buildData_indices_not_sized :
    ∃ b, BuildData.new threePoints Matrix.empty 3 = some b ∧
      b.indices.size = 0 ∧ b.indices.elems = [] ∧
      b.indices.storage = [some 0, some 1, some 2] ∧
      b.outputInsertionPoint = 0 ∧
      b.outputFeatures.rows = threePoints.rows ∧ b.outputFeatures.cols = threePoints.cols ∧
      b.outputDescriptors.rows = 3 ∧ b.outputDescriptors.cols = threePoints.cols :=
  ⟨_, rfl, by decide⟩
/-! ## `dumpDataLinks` -/

/-- First coefficients of non-empty columns, by index. -/
theorem filterMap_head_getElem {α : Type} (data : List (List α))
    (h : ∀ c ∈ data, c ≠ []) :
    (data.filterMap List.head?).length = data.length ∧
      ∀ i : Nat, (data.filterMap List.head?)[i]? = (data[i]?).bind List.head? := by
  induction data with
  | nil => exact ⟨rfl, fun i => by simp⟩
  | cons c rest ih =>
    obtain ⟨hl, hi⟩ := ih (fun d hd => h d (List.mem_cons_of_mem _ hd))
    have hc : c ≠ [] := h c (List.mem_cons_self _ _)
    cases c with
    | nil => exact absurd rfl hc
    | cons x xs =>
      have e : (((x :: xs) :: rest).filterMap List.head?) = x :: rest.filterMap List.head? := by
        simp [List.filterMap_cons]
      rw [e]
      refine ⟨by simp [hl], ?_⟩
      intro i
      cases i with
      | zero => simp
      | succ i => simpa using hi i

/-- The first row of a well-formed matrix with a row: its length and its coefficients. -/
theorem Matrix.firstRow_spec {α : Type} (m : Matrix α) (hwf : m.WF) (hrow : 1 ≤ m.rows) :
    m.firstRow.length = m.cols ∧ ∀ i, i < m.cols → m.coeff 0 i = m.firstRow[i]? := by
  obtain ⟨hlen, hcol, _, _⟩ := hwf
  have hne : ∀ c ∈ m.data, c ≠ [] := by
    intro c hc e
    have := hcol c hc
    rw [e] at this
    simp at this
    omega
  obtain ⟨hl, hi⟩ := filterMap_head_getElem m.data hne
  refine ⟨by rw [Matrix.firstRow, hl, hlen], ?_⟩
  intro i hic
  have h0 : 0 < m.rows := by omega
  rw [Matrix.firstRow, hi i]
  simp only [Matrix.coeff, h0, hic, and_self, if_true]
  cases m.data[i]? with
  | none => rfl
  | some col => simp [List.head?_eq_getElem?]

/-- The line records written for the reading points from `k` on. -/
theorem linkRecords_range (T : Type) (R : Int) (ids : Matrix Int) (hR : 0 ≤ R)
    (hlen : ids.firstRow.length = ids.cols)
    (hco : ∀ i, i < ids.cols → ids.coeff 0 i = ids.firstRow[i]?)
    (hfit : R + ids.cols < 2147483648) (m : Nat) :
    ∀ k, k + m = ids.cols →
      (linkRecords R ids (List.range' k m) : Option (List (Chunk T))) =
        some (((List.range' k m).zip (ids.firstRow.drop k)).flatMap
          (fun p => [Chunk.text "2 ", Chunk.int (R + p.1), Chunk.text " ", Chunk.int p.2,
            Chunk.text "\n"])) := by
  induction m with
  | zero => intro k _; rfl
  | succ m ih =>
    intro k hk
    have hkc : k < ids.cols := by omega
    have hkl : k < ids.firstRow.length := by omega
    have e1 : ids.firstRow.drop k = ids.firstRow[k] :: ids.firstRow.drop (k + 1) :=
      List.drop_eq_getElem_cons hkl
    have r : List.range' k (m + 1) = k :: List.range' (k + 1) m := by
      simp [List.range'_succ]
    rw [r, linkRecords, ih (k + 1) (by omega), hco k hkc, List.getElem?_eq_getElem hkl, e1,
      wrapInt32_of_range (by omega) (by omega)]
    rfl

/-- The outlier scalars written for the reading points from `k` on. -/
theorem outlierRecords_range {T : Type} (w : OutlierWeights T)
    (hlen : w.firstRow.length = w.cols)
    (hco : ∀ i, i < w.cols → w.coeff 0 i = w.firstRow[i]?) (m : Nat) :
    ∀ k, k + m = w.cols →
      outlierRecords w (List.range' k m) =
        some ((w.firstRow.drop k).flatMap (fun x => [Chunk.scalar x, Chunk.text "\n"])) := by
  induction m with
  | zero =>
    intro k hk
    have e1 : w.firstRow.drop k = [] := List.drop_eq_nil_of_le (by omega)
    rw [e1]
    rfl
  | succ m ih =>
    intro k hk
    have hkc : k < w.cols := by omega
    have hkl : k < w.firstRow.length := by omega
    have e1 : w.firstRow.drop k = w.firstRow[k] :: w.firstRow.drop (k + 1) :=
      List.drop_eq_getElem_cons hkl
    have r : List.range' k (m + 1) = k :: List.range' (k + 1) m := by
      simp [List.range'_succ]
    rw [r, outlierRecords, ih (k + 1) (by omega), hco k hkc, List.getElem?_eq_getElem hkl, e1]
    rfl

/-- The coordinates block exists when the matrix has the three rows kept. -/
theorem pointsBlock_isSome {T : Type} (b : Bool) (m : Matrix T) (h : b = true → 3 ≤ m.rows) :
    ∃ p, pointsBlock b m = some p := by
  cases b with
  | false => exact ⟨_, rfl⟩
  | true =>
    have h3 : 3 ≤ m.rows := h rfl
    have hc : (0 : Int) ≤ 0 ∧ (0 : Int) ≤ 3 ∧ (0 : Int) + 3 ≤ m.rows ∧ (0 : Int) ≤ 0 ∧
        (0 : Int) ≤ m.cols ∧ (0 : Int) + m.cols ≤ m.cols := by omega
    simp only [pointsBlock, if_true, Matrix.cornerTopLeft, Matrix.block, hc, and_self,
      Option.map_some']
    exact ⟨_, rfl⟩

/-- Counterexample to C17: with a reference of four feature rows and a reading of two, the
matches and weights being as the claim asks, `dumpDataLinks` takes the three-row corner of
the two-row reading features and writes nothing. -/
theorem dumpDataLinks_fails_on_short_reading :
    oneMatch.ids.rows = 1 ∧ oneMatch.ids.cols = onePoint.features.cols ∧
    oneWeight.rows = 1 ∧ oneWeight.cols = onePoint.features.cols ∧
    oneMatch.ids.coeff 0 0 = some 0 ∧ (0 : Int) < spacePoint.features.cols ∧
    dumpDataLinks spacePoint onePoint oneMatch oneWeight = none := by
  decide

/-- C17 as amended: when moreover the reading has the three feature rows printed for a
reference of four rows, and `R + N` is an `int`, `dumpDataLinks` declares `R + N` points and
`N` lines, writes for each reading point `i`, in order, the one record `2 (R + i) ids(0, i)`,
both indices below `R + N`, then the `N` scalars `featureOutlierWeights(0, i)`. -/
theorem dumpDataLinks_records {T : Type} (ref reading : DataPoints T) (matches_ : Matches T)
    (featureOutlierWeights : OutlierWeights T)
    (hids : matches_.ids.WF) (hw : featureOutlierWeights.WF)
    (hidr : 1 ≤ matches_.ids.rows) (hidc : matches_.ids.cols = reading.features.cols)
    (hwr : 1 ≤ featureOutlierWeights.rows)
    (hwc : featureOutlierWeights.cols = reading.features.cols)
    (hrange : ∀ i v, i < reading.features.cols → matches_.ids.coeff 0 i = some v →
      0 ≤ v ∧ v < ref.features.cols)
    (hdim : ref.features.rows = 4 → 3 ≤ reading.features.rows)
    (hfit : ref.features.cols + reading.features.cols < 2147483648) :
    ∃ refPts readingPts,
      pointsBlock (ref.features.rows == 4) ref.features = some refPts ∧
      pointsBlock (ref.features.rows == 4) reading.features = some readingPts ∧
      dumpDataLinks ref reading matches_ featureOutlierWeights =
        some ([Chunk.text "# vtk DataFile Version 3.0\n", Chunk.text "comment\n",
            Chunk.text "ASCII\n", Chunk.text "DATASET POLYDATA\n",
            Chunk.text "POINTS ",
            Chunk.int ((ref.features.cols : Int) + (reading.features.cols : Int)),
            Chunk.text " float\n",
            Chunk.matrix refPts, Chunk.text "\n", Chunk.matrix readingPts, Chunk.text "\n",
            Chunk.text "LINES ", Chunk.int (reading.features.cols : Int), Chunk.text " ",
            Chunk.int (wrapInt32 ((reading.features.cols : Int) * 3)), Chunk.text "\n"]
          ++ ((List.range reading.features.cols).zip matches_.ids.firstRow).flatMap
            (fun p => [Chunk.text "2 ", Chunk.int ((ref.features.cols : Int) + p.1),
              Chunk.text " ", Chunk.int p.2, Chunk.text "\n"])
          ++ [Chunk.text "CELL_DATA ", Chunk.int (reading.features.cols : Int),
            Chunk.text "\n", Chunk.text "SCALARS outlier float 1\n",
            Chunk.text "LOOKUP_TABLE default\n"]
          ++ featureOutlierWeights.firstRow.flatMap
            (fun x => [Chunk.scalar x, Chunk.text "\n"])) ∧
      matches_.ids.firstRow.length = reading.features.cols ∧
      featureOutlierWeights.firstRow.length = reading.features.cols ∧
      (∀ i, i < reading.features.cols →
        matches_.ids.coeff 0 i = matches_.ids.firstRow[i]? ∧
        featureOutlierWeights.coeff 0 i = featureOutlierWeights.firstRow[i]?) ∧
      (∀ p ∈ (List.range reading.features.cols).zip matches_.ids.firstRow,
        (ref.features.cols : Int) + p.1 < (ref.features.cols : Int) + reading.features.cols ∧
        0 ≤ p.2 ∧ p.2 < (ref.features.cols : Int) + reading.features.cols) := by
  obtain ⟨hil, hico⟩ := Matrix.firstRow_spec matches_.ids hids hidr
  obtain ⟨hwl, hwco⟩ := Matrix.firstRow_spec featureOutlierWeights hw hwr
  obtain ⟨refPts, hrp⟩ := pointsBlock_isSome (ref.features.rows == 4) ref.features
    (fun h => by have := of_decide_eq_true h; omega)
  obtain ⟨readingPts, hdp⟩ := pointsBlock_isSome (ref.features.rows == 4) reading.features
    (fun h => hdim (of_decide_eq_true h))
  have hlinks := linkRecords_range T (ref.features.cols : Int) matches_.ids (by omega)
    hil hico (by omega) matches_.ids.cols 0 (by omega)
  have hout := outlierRecords_range featureOutlierWeights hwl hwco featureOutlierWeights.cols 0
    (by omega)
  rw [← List.range_eq_range', hidc] at hlinks
  rw [← List.range_eq_range', hwc] at hout
  simp only [List.drop_zero] at hlinks hout
  refine ⟨refPts, readingPts, hrp, hdp, ?_, by rw [hil, hidc], by rw [hwl, hwc], ?_, ?_⟩
  · unfold dumpDataLinks
    simp only [hrp, hdp, hlinks, hout]
    rw [wrapInt32_of_range (by omega) (by omega)]
  · intro i hi
    exact ⟨hico i (by omega), hwco i (by omega)⟩
  · intro p hp
    have hp2 := List.mem_iff_getElem.mp hp
    obtain ⟨n, hn, hpn⟩ := hp2
    have hnl : n < reading.features.cols := by
      have := hn
      simp only [List.length_zip, List.length_range] at this
      omega
    have e1 : p.1 = n := by rw [← hpn]; simp
    have e2 : matches_.ids.firstRow[n]? = some p.2 := by
      rw [← hpn]
      simp [List.getElem?_eq_getElem (by omega : n < matches_.ids.firstRow.length)]
    have hv := hrange n p.2 hnl (by rw [hico n (by omega), e2])
    rw [e1]
    omega

/-- Witness of the amended C17: reference and reading of one planar point each. -/
theorem dumpDataLinks_records_witness :
    oneMatch.ids.WF ∧ oneWeight.WF ∧ 1 ≤ oneMatch.ids.rows ∧
    oneMatch.ids.cols = onePoint.features.cols ∧ 1 ≤ oneWeight.rows ∧
    oneWeight.cols = onePoint.features.cols ∧
    (onePoint.features.rows = 4 → 3 ≤ onePoint.features.rows) ∧
    onePoint.features.cols + onePoint.features.cols < 2147483648 ∧
    oneMatch.ids.firstRow.length = onePoint.features.cols :=
  ⟨by decide, by decide, by decide, by decide, by decide, by decide, by decide, by decide,
    match dumpDataLinks_records onePoint onePoint oneMatch oneWeight (by decide) (by decide)
      (by decide) (by decide) (by decide) (by decide)
      (fun i v hi h => by
        have hi0 : i = 0 := by
          have : i < 1 := hi
          omega
        subst hi0
        have e : oneMatch.ids.coeff 0 0 = some 0 := by decide
        rw [e] at h
        cases h
        decide)
      (by decide) (by decide) with
    | ⟨_, _, _, _, _, hlen, _⟩ => hlen⟩
/-! ## Stacking the blocks of `getDescriptorByName` -/

/-- Pairing the images of one list under two functions, then appending. -/
theorem zipWith_append_map {α β : Type} (f g : α → List β) (xs : List α) :
    List.zipWith (fun a b => a ++ b) (xs.map f) (xs.map g) = xs.map (fun x => f x ++ g x) := by
  induction xs with
  | nil => rfl
  | cons x rest ih => simp [ih]

/-- A block of whole rows of a matrix with consistent storage, in closed form. -/
theorem Matrix.block_rows_eq {T : Type} (D : Matrix T) (hlen : D.data.length = D.cols)
    (off span : Nat) (h : off + span ≤ D.rows) :
    D.block (off : Int) 0 (span : Int) D.cols =
      some ⟨span, D.cols, D.data.map (fun col => (col.drop off).take span)⟩ := by
  have hc : (0 : Int) ≤ off ∧ (0 : Int) ≤ span ∧ (off : Int) + span ≤ D.rows ∧ (0 : Int) ≤ 0 ∧
      (0 : Int) ≤ D.cols ∧ (0 : Int) + D.cols ≤ D.cols := by omega
  simp only [Matrix.block, hc, and_self, if_true, Int.toNat_ofNat, Int.toNat_zero,
    List.drop_zero]
  rw [List.take_of_length_le (by omega)]

/-- Stacking the row blocks cut at successive spans gives the rows they cover. -/
theorem vstack_rowBlocks {T : Type} (D : Matrix T) (hlen : D.data.length = D.cols)
    (ls : Labels) : ∀ off,
    vstack D.cols (rowBlocks D off ls) =
      ⟨spanSum ls, D.cols, D.data.map (fun col => (col.drop off).take (spanSum ls))⟩ := by
  induction ls with
  | nil =>
    intro off
    simp only [rowBlocks, vstack, spanSum, List.map_nil, List.sum_nil, List.take_zero]
    rw [← hlen]
    congr 1
    exact (List.eq_replicate_iff.mpr ⟨by simp, fun b hb => by
      obtain ⟨_, _, rfl⟩ := List.mem_map.mp hb
      rfl⟩).symm
  | cons l rest ih =>
    intro off
    simp only [rowBlocks, vstack, ih (off + l.span), spanSum_cons, zipWith_append_map]
    congr 1
    apply List.map_congr_left
    intro col _
    rw [List.take_add, List.drop_drop]

/-- Texts before a label in a list of pairwise distinct texts differ from its text. -/
theorem texts_before_differ (pre : Labels) (l : Label) (post : Labels)
    (h : ((pre ++ l :: post).map Label.text).Nodup) : ∀ p ∈ pre, p.text ≠ l.text := by
  intro p hp e
  rw [List.map_append, List.map_cons] at h
  have h2 := (List.nodup_middle.mp h)
  have h3 := (List.nodup_cons.mp h2).1
  apply h3
  rw [← e]
  exact List.mem_append_left _ (List.mem_map_of_mem _ hp)

/-- With distinct texts every label is looked up as the row block at its own offset. -/
theorem lookups_are_rowBlocks {T : Type} (d : DataPoints T)
    (hwf : d.descriptors.WF) (hsum : spanSum d.descriptorLabels = d.descriptors.rows)
    (hdistinct : (d.descriptorLabels.map Label.text).Nodup) (suffix : Labels) :
    ∀ pre, d.descriptorLabels = pre ++ suffix →
      List.Forall₂ (fun l b => d.getDescriptorByName l.text = some b) suffix
        (rowBlocks d.descriptors (spanSum pre) suffix) := by
  have hrows : d.descriptors.rows < 2147483648 := hwf.2.2.1
  induction suffix with
  | nil => intro pre _; exact List.Forall₂.nil
  | cons l rest ih =>
    intro pre hsplit
    have hfit : spanSum pre + l.span + spanSum rest = d.descriptors.rows := by
      rw [← hsum, hsplit, spanSum_append, spanSum_cons]
      omega
    have hpre := texts_before_differ pre l rest (hsplit ▸ hdistinct)
    have hb := getDescriptorByName_eq_block d l.text pre l rest hsplit hpre rfl (by omega)
    rw [Matrix.block_rows_eq d.descriptors hwf.1 (spanSum pre) l.span (by omega)] at hb
    refine List.Forall₂.cons hb ?_
    have := ih (pre ++ [l]) (by rw [hsplit]; simp)
    rw [spanSum_append, spanSum_cons] at this
    simpa [spanSum] using this

/-- C18: in a well-formed cloud whose descriptor label texts are pairwise distinct and whose
spans sum to `descriptors.rows()`, looking up the labels in list order gives blocks which,
stacked vertically, are `descriptors` exactly; the blocks of two labels are read at the
offsets of these labels and the row range of the earlier ends before that of the later. -/
theorem getDescriptorByName_blocks_stack {T : Type} (d : DataPoints T)
    (hwf : d.descriptors.WF) (hsum : spanSum d.descriptorLabels = d.descriptors.rows)
    (hdistinct : (d.descriptorLabels.map Label.text).Nodup) :
    ∃ blocks,
      List.Forall₂ (fun l b => d.getDescriptorByName l.text = some b)
        d.descriptorLabels blocks ∧
      vstack d.descriptors.cols blocks = d.descriptors ∧
      ∀ pre l mid l2 post, d.descriptorLabels = pre ++ l :: (mid ++ l2 :: post) →
        d.getDescriptorByName l.text =
          d.descriptors.block (spanSum pre : Int) 0 (l.span : Int) d.descriptors.cols ∧
        d.getDescriptorByName l2.text =
          d.descriptors.block (spanSum (pre ++ l :: mid) : Int) 0 (l2.span : Int)
            d.descriptors.cols ∧
        spanSum pre + l.span ≤ spanSum (pre ++ l :: mid) ∧
        spanSum (pre ++ l :: mid) + l2.span ≤ d.descriptors.rows := by
  have hrows : d.descriptors.rows < 2147483648 := hwf.2.2.1
  refine ⟨rowBlocks d.descriptors 0 d.descriptorLabels, ?_, ?_, ?_⟩
  · have := lookups_are_rowBlocks d hwf hsum hdistinct d.descriptorLabels [] rfl
    simpa [spanSum] using this
  · rw [vstack_rowBlocks d.descriptors hwf.1, hsum]
    have e : d.descriptors.data.map (fun col => (col.drop 0).take d.descriptors.rows) =
        d.descriptors.data := by
      conv_rhs => rw [← List.map_id d.descriptors.data]
      apply List.map_congr_left
      intro col hcol
      rw [List.drop_zero, List.take_of_length_le (Nat.le_of_eq (hwf.2.1 col hcol))]
      rfl
    rw [e]
  · intro pre l mid l2 post hsplit
    have hs := hsum
    rw [hsplit, spanSum_append, spanSum_cons, spanSum_append, spanSum_cons] at hs
    have h1 := texts_before_differ pre l (mid ++ l2 :: post) (hsplit ▸ hdistinct)
    have hsplit2 : d.descriptorLabels = (pre ++ l :: mid) ++ l2 :: post := by
      rw [hsplit]; simp
    have h2 := texts_before_differ (pre ++ l :: mid) l2 post (hsplit2 ▸ hdistinct)
    have s2 : spanSum (pre ++ l :: mid) = spanSum pre + (l.span + spanSum mid) := by
      rw [spanSum_append, spanSum_cons]
    refine ⟨getDescriptorByName_eq_block d l.text pre l _ hsplit h1 rfl (by omega),
      getDescriptorByName_eq_block d l2.text (pre ++ l :: mid) l2 post hsplit2 h2 rfl
        (by omega), by omega, by omega⟩

/-- Witness of C18 on `distinctCloud`, of two labels. -/
theorem getDescriptorByName_blocks_stack_witness :
    distinctCloud.descriptors.WF ∧
    spanSum distinctCloud.descriptorLabels = distinctCloud.descriptors.rows ∧
    (distinctCloud.descriptorLabels.map Label.text).Nodup ∧
    ∃ blocks,
      List.Forall₂ (fun l b => distinctCloud.getDescriptorByName l.text = some b)
        distinctCloud.descriptorLabels blocks ∧
      vstack distinctCloud.descriptors.cols blocks = distinctCloud.descriptors :=
  ⟨by decide, by decide, by decide,
    match getDescriptorByName_blocks_stack distinctCloud (by decide) (by decide)
      (by decide) with
    | ⟨blocks, h1, h2, _⟩ => ⟨blocks, h1, h2⟩⟩
/-! ## `padWithZeros` -/

/-- Columns after an overlay, by index. -/
theorem overlayColumns_getElem {T : Type} (rows : Nat) :
    ∀ (src dst : List (List T)) (c : Nat),
      (overlayColumns rows src dst)[c]? =
        match dst[c]?, src[c]? with
        | none, _ => none
        | some d, none => some d
        | some d, some s => some (s.take rows ++ d.drop rows) := by
  intro src
  induction src with
  | nil =>
    intro dst c
    rw [overlayColumns]
    cases dst[c]? <;> simp
  | cons s ss ih =>
    intro dst c
    cases dst with
    | nil => simp [overlayColumns]
    | cons d ds =>
      rw [overlayColumns]
      cases c with
      | zero => simp
      | succ c => simpa using ih ds c

/-- An overlay keeps the number of columns of the destination. -/
theorem overlayColumns_length {T : Type} (rows : Nat) :
    ∀ (src dst : List (List T)), (overlayColumns rows src dst).length = dst.length := by
  intro src
  induction src with
  | nil => intro dst; rw [overlayColumns]
  | cons s ss ih =>
    intro dst
    cases dst with
    | nil => simp [overlayColumns]
    | cons d ds => simp [overlayColumns, ih ds]

/-- The matrix `padWithZeros` builds when the shapes differ: its columns by index. -/
theorem padded_column {T : Type} [Zero T] (m : Matrix T) (eR eC : Nat) (hwf : m.WF)
    (hr : m.rows ≤ eR) (c : Nat) (hc : c < eC) :
    ∃ col, (overlayColumns m.rows (m.data.take m.cols)
        (List.replicate eC (List.replicate eR (0 : T))))[c]? = some col ∧
      col.length = eR ∧
      ∀ r, r < eR → col[r]? = if r < m.rows ∧ c < m.cols then m.coeff r c else some 0 := by
  obtain ⟨hlen, hcol, _, _⟩ := hwf
  rw [overlayColumns_getElem]
  have hd : (List.replicate eC (List.replicate eR (0 : T)))[c]? =
      some (List.replicate eR 0) := by
    simp [List.getElem?_replicate, hc]
  rw [hd]
  by_cases hcm : c < m.cols
  · have hcl : c < m.data.length := by omega
    have hs : (m.data.take m.cols)[c]? = some m.data[c] := by
      rw [List.getElem?_take_of_lt hcm, List.getElem?_eq_getElem hcl]
    have hl : (m.data[c]).length = m.rows := hcol _ (List.getElem_mem _)
    rw [hs]
    refine ⟨_, rfl, ?_, ?_⟩
    · simp [hl]
      omega
    · intro r hre
      rw [List.take_of_length_le (Nat.le_of_eq hl)]
      by_cases hrm : r < m.rows
      · have hrl : r < (m.data[c]).length := by omega
        simp [hrm, hcm, Matrix.coeff, List.getElem?_eq_getElem hcl,
          List.getElem?_append_left hrl]
      · have hge : (m.data[c]).length ≤ r := by omega
        rw [List.getElem?_append_right hge]
        simp [hrm, List.getElem?_replicate]
        omega
  · have hs : (m.data.take m.cols)[c]? = none := by
      rw [List.getElem?_eq_none_iff]
      simp
      omega
    rw [hs]
    refine ⟨_, rfl, by simp, ?_⟩
    intro r hre
    simp [hcm, List.getElem?_replicate, hre]

/-- C19: for a well-formed `m` with `m.rows() ≤ expectedRow` and `m.cols() ≤ expectedCols`,
`padWithZeros` returns an `expectedRow × expectedCols` matrix equal to `m` on its top-left
`m.rows() × m.cols()` block and zero elsewhere; it returns `m` itself when the shapes are
equal, and padding the result again changes nothing. -/
theorem padWithZeros_spec {T : Type} [Zero T] (m : Matrix T) (expectedRow expectedCols : Int)
    (hwf : m.WF) (hr : (m.rows : Int) ≤ expectedRow) (hc : (m.cols : Int) ≤ expectedCols)
    (hR : expectedRow < 2147483648) (hC : expectedCols < 2147483648) :
    ∃ p, padWithZeros m expectedRow expectedCols = some p ∧
      (p.rows : Int) = expectedRow ∧ (p.cols : Int) = expectedCols ∧ p.WF ∧
      (∀ r c, r < p.rows → c < p.cols →
        p.coeff r c = if r < m.rows ∧ c < m.cols then m.coeff r c else some 0) ∧
      ((m.rows : Int) = expectedRow → (m.cols : Int) = expectedCols → p = m) ∧
      padWithZeros p expectedRow expectedCols = some p := by
  lift expectedRow to Nat using (by omega) with eR
  lift expectedCols to Nat using (by omega) with eC
  have hr2 : m.rows ≤ eR := by omega
  have hc2 : m.cols ≤ eC := by omega
  have again : ∀ p : Matrix T, p.rows = eR → p.cols = eC →
      padWithZeros p (eR : Int) (eC : Int) = some p := by
    intro p h1 h2
    rw [← h1, ← h2]
    simp only [padWithZeros, le_refl, or_self, not_true_eq_false, if_false, and_self, if_true]
  by_cases hshape : (m.cols : Int) = eC ∧ (m.rows : Int) = eR
  · have e1 : m.rows = eR := by omega
    have e2 : m.cols = eC := by omega
    refine ⟨m, again m e1 e2, by omega, by omega, hwf, ?_, fun _ _ => rfl, again m e1 e2⟩
    intro r c hr hc
    simp [hr, hc]
  · have a1 : ((m.cols : Int) ≤ eC ∨ (m.rows : Int) ≤ eR) := Or.inl (by omega)
    have z : (0 : Int) ≤ eR ∧ (0 : Int) ≤ eC := ⟨by omega, by omega⟩
    have hp : padWithZeros m (eR : Int) (eC : Int) =
        some ⟨eR, eC, overlayColumns m.rows (m.data.take m.cols)
          (List.replicate eC (List.replicate eR (0 : T)))⟩ := by
      simp only [padWithZeros, a1, not_true_eq_false, if_false, hshape, Matrix.Zero, z,
        and_self, if_true, Int.toNat_ofNat, Matrix.assignTopLeft, hr2, hc2]
    refine ⟨_, hp, rfl, rfl, ⟨?_, ?_, by simpa using hR, by simpa using hC⟩, ?_, ?_,
      again _ rfl rfl⟩
    · simp [overlayColumns_length]
    · intro col hcol
      obtain ⟨c, hcl, hce⟩ := List.mem_iff_getElem.mp hcol
      have hcC : c < eC := by simpa [overlayColumns_length] using hcl
      obtain ⟨col2, h1, h2, _⟩ := padded_column m eR eC hwf hr2 c hcC
      rw [List.getElem?_eq_getElem hcl, hce] at h1
      cases h1
      exact h2
    · intro r c hrr hcc
      obtain ⟨col, h1, _, h3⟩ := padded_column m eR eC hwf hr2 c hcc
      simp only [Matrix.coeff, hrr, hcc, and_self, if_true, h1, Option.bind_some]
      exact h3 r hrr
    · intro h1 h2
      exact absurd ⟨h2, h1⟩ hshape

/-- Witness of C19: a `2 × 1` block padded to `3 × 2`. -/
theorem padWithZeros_spec_witness :
    tallBlock.WF ∧ (tallBlock.rows : Int) ≤ 3 ∧ (tallBlock.cols : Int) ≤ 2 ∧
    ∃ p, padWithZeros tallBlock 3 2 = some p ∧ (p.rows : Int) = 3 ∧ (p.cols : Int) = 2 :=
  ⟨by decide, by decide, by decide,
    match padWithZeros_spec tallBlock 3 2 (by decide) (by decide) (by decide) (by decide)
      (by decide) with
    | ⟨p, h1, h2, h3, _⟩ => ⟨p, h1, h2, h3⟩⟩

/-- Evaluation for C21: for a cloud of two points the operands written are `POINTS 2`, then
`VERTICES 1 4`, a header declaring one cell, followed by the two vertex records `1 0` and
`1 1`, then `POINT_DATA 2`. -/
theorem dumpDataPoints_declares_one_cell :
    dumpDataPoints twoPoints =
      some [Chunk.text "# vtk DataFile Version 3.0\n", Chunk.text "comment\n",
        Chunk.text "ASCII\n", Chunk.text "DATASET POLYDATA\n",
        Chunk.text "POINTS ", Chunk.int 2, Chunk.text " float\n",
        Chunk.matrix ⟨2, 2, [[0, 1], [0, 0]]⟩, Chunk.text "\n",
        Chunk.text "VERTICES 1 ", Chunk.int 4, Chunk.text "\n",
        Chunk.text "1 ", Chunk.int 0, Chunk.text "\n",
        Chunk.text "1 ", Chunk.int 1, Chunk.text "\n",
        Chunk.text "POINT_DATA ", Chunk.int 2, Chunk.text "\n"] := by
  decide

/-! ## `CompareDim` -/

/-- Inside a well-formed matrix a coefficient exists. -/
theorem Matrix.coeff_isSome {T : Type} (m : Matrix T) (hwf : m.WF) (r c : Nat)
    (hr : r < m.rows) (hc : c < m.cols) : ∃ v, m.coeff r c = some v := by
  obtain ⟨hlen, hcol, _, _⟩ := hwf
  have hc2 : c < m.data.length := by omega
  have hl : (m.data[c]).length = m.rows := hcol _ (List.getElem_mem _)
  have hr2 : r < (m.data[c]).length := by omega
  exact ⟨(m.data[c])[r], by
    simp [Matrix.coeff, hr, hc, List.getElem?_eq_getElem hc2, List.getElem?_eq_getElem hr2]⟩

/-- On a valid dimension and point indices the comparator compares the coordinates. -/
theorem CompareDim.call_eq {T : Type} [LinearOrder T] (cmp : CompareDim T)
    (hwf : cmp.buildData.inputFeatures.WF)
    (hd0 : 0 ≤ cmp.dim) (hd : cmp.dim < cmp.buildData.inputFeatures.rows) (p q : Int)
    (hp0 : 0 ≤ p) (hp : p < cmp.buildData.inputFeatures.cols)
    (hq0 : 0 ≤ q) (hq : q < cmp.buildData.inputFeatures.cols) :
    ∃ a b, cmp.buildData.inputFeatures.coeffAt cmp.dim p = some a ∧
      cmp.buildData.inputFeatures.coeffAt cmp.dim q = some b ∧
      cmp.call p q = some (decide (a < b)) := by
  obtain ⟨a, ha⟩ := Matrix.coeff_isSome cmp.buildData.inputFeatures hwf cmp.dim.toNat p.toNat
    (by omega) (by omega)
  obtain ⟨b, hb⟩ := Matrix.coeff_isSome cmp.buildData.inputFeatures hwf cmp.dim.toNat q.toNat
    (by omega) (by omega)
  have ea : cmp.buildData.inputFeatures.coeffAt cmp.dim p = some a := by
    simp [Matrix.coeffAt, hd0, hp0, ha]
  have eb : cmp.buildData.inputFeatures.coeffAt cmp.dim q = some b := by
    simp [Matrix.coeffAt, hd0, hq0, hb]
  exact ⟨a, b, ea, eb, by simp [CompareDim.call, ea, eb]⟩

/-- C22: for a valid dimension of well-formed input features over a totally ordered scalar
type, `CompareDim` is a strict weak ordering on the point indices: irreflexive, asymmetric,
transitive, two indices being incomparable exactly when their coordinates along `dim` are
equal, so that incomparability is transitive. -/
theorem compareDim_strict_weak_order {T : Type} [LinearOrder T] (cmp : CompareDim T)
    (hwf : cmp.buildData.inputFeatures.WF)
    (hd0 : 0 ≤ cmp.dim) (hd : cmp.dim < cmp.buildData.inputFeatures.rows) (p q r : Int)
    (hp0 : 0 ≤ p) (hp : p < cmp.buildData.inputFeatures.cols)
    (hq0 : 0 ≤ q) (hq : q < cmp.buildData.inputFeatures.cols)
    (hr0 : 0 ≤ r) (hr : r < cmp.buildData.inputFeatures.cols) :
    cmp.call p p = some false ∧
    (cmp.call p q = some true → cmp.call q p = some false) ∧
    (cmp.call p q = some true → cmp.call q r = some true → cmp.call p r = some true) ∧
    ((cmp.call p q = some false ∧ cmp.call q p = some false) ↔
      cmp.buildData.inputFeatures.coeffAt cmp.dim p =
        cmp.buildData.inputFeatures.coeffAt cmp.dim q) ∧
    (cmp.call p q = some false ∧ cmp.call q p = some false →
      cmp.call q r = some false ∧ cmp.call r q = some false →
      cmp.call p r = some false ∧ cmp.call r p = some false) := by
  obtain ⟨a, a2, ha, ha2, hpp⟩ := CompareDim.call_eq cmp hwf hd0 hd p p hp0 hp hp0 hp
  obtain ⟨a3, b, ha3, hb, hpq⟩ := CompareDim.call_eq cmp hwf hd0 hd p q hp0 hp hq0 hq
  obtain ⟨b2, a4, hb2, ha4, hqp⟩ := CompareDim.call_eq cmp hwf hd0 hd q p hq0 hq hp0 hp
  obtain ⟨b3, c, hb3, hc, hqr⟩ := CompareDim.call_eq cmp hwf hd0 hd q r hq0 hq hr0 hr
  obtain ⟨c2, b4, hc2, hb4, hrq⟩ := CompareDim.call_eq cmp hwf hd0 hd r q hr0 hr hq0 hq
  obtain ⟨a5, c3, ha5, hc3, hpr⟩ := CompareDim.call_eq cmp hwf hd0 hd p r hp0 hp hr0 hr
  obtain ⟨c4, a6, hc4, ha6, hrp⟩ := CompareDim.call_eq cmp hwf hd0 hd r p hr0 hr hp0 hp
  have e1 : a2 = a := Option.some.inj (ha2.symm.trans ha)
  have e2 : a3 = a := Option.some.inj (ha3.symm.trans ha)
  have e3 : a4 = a := Option.some.inj (ha4.symm.trans ha)
  have e4 : a5 = a := Option.some.inj (ha5.symm.trans ha)
  have e5 : a6 = a := Option.some.inj (ha6.symm.trans ha)
  have f1 : b2 = b := Option.some.inj (hb2.symm.trans hb)
  have f2 : b3 = b := Option.some.inj (hb3.symm.trans hb)
  have f3 : b4 = b := Option.some.inj (hb4.symm.trans hb)
  have g1 : c2 = c := Option.some.inj (hc2.symm.trans hc)
  have g2 : c3 = c := Option.some.inj (hc3.symm.trans hc)
  have g3 : c4 = c := Option.some.inj (hc4.symm.trans hc)
  subst e1 e2 e3 e4 e5 f1 f2 f3 g1 g2 g3
  rw [hpp, hpq, hqp, hqr, hrq, hpr, hrp, ha, hb]
  simp only [Option.some.injEq, decide_eq_true_eq, decide_eq_false_iff_not, lt_self_iff_false,
    not_false_eq_true, decide_False, not_lt, true_and]
  refine ⟨fun h => le_of_lt h, fun h1 h2 => lt_trans h1 h2, ?_, ?_⟩
  · exact ⟨fun h => le_antisymm h.2 h.1, fun h => ⟨le_of_eq h.symm, le_of_eq h⟩⟩
  · intro h1 h2
    exact ⟨le_trans h2.1 h1.1, le_trans h1.2 h2.2⟩

/-- Witness of C22: the first coordinates of the three points of `threePoints`. -/
theorem compareDim_strict_weak_order_witness :
    sampleCompare.buildData.inputFeatures.WF ∧
    sampleCompare.call 0 0 = some false ∧
    (sampleCompare.call 0 1 = some true → sampleCompare.call 1 0 = some false) :=
  ⟨by decide,
    (compareDim_strict_weak_order sampleCompare (by decide) (by decide) (by decide) 0 1 2
      (by decide) (by decide) (by decide) (by decide) (by decide) (by decide)).1,
    (compareDim_strict_weak_order sampleCompare (by decide) (by decide) (by decide) 0 1 2
      (by decide) (by decide) (by decide) (by decide) (by decide) (by decide)).2.1⟩
/-! ## `buildGenericAttributeStream` -/

/-- Coefficients of one row of columns that all reach it, by index. -/
theorem filterMap_row_getElem {α : Type} (r : Nat) (data : List (List α))
    (h : ∀ c ∈ data, r < c.length) :
    (data.filterMap (fun col => col[r]?)).length = data.length ∧
      ∀ p : Nat, (data.filterMap (fun col => col[r]?))[p]? =
        (data[p]?).bind (fun col => col[r]?) := by
  induction data with
  | nil => exact ⟨rfl, fun p => by simp⟩
  | cons col0 rest ih =>
    obtain ⟨hl, hi⟩ := ih (fun d hd => h d (List.mem_cons_of_mem _ hd))
    have hc : r < col0.length := h col0 (List.mem_cons_self _ _)
    have e : ((col0 :: rest).filterMap (fun col => col[r]?)) =
        col0[r] :: rest.filterMap (fun col => col[r]?) := by
      simp [List.filterMap_cons, List.getElem?_eq_getElem hc]
    rw [e]
    refine ⟨by simp [hl], ?_⟩
    intro p
    cases p with
    | zero => simp [List.getElem?_eq_getElem hc]
    | succ p => simpa using hi p

/-- Coefficients of the transpose of a well-formed matrix. -/
theorem Matrix.transpose_coeff {T : Type} (m : Matrix T) (hwf : m.WF) (p k : Nat)
    (hp : p < m.cols) (hk : k < m.rows) : m.transpose.coeff p k = m.coeff k p := by
  obtain ⟨hlen, hcol, _, _⟩ := hwf
  have hrow : ∀ c ∈ m.data, k < c.length := fun c hc => by rw [hcol c hc]; exact hk
  obtain ⟨_, hi⟩ := filterMap_row_getElem k m.data hrow
  have hx : (List.range m.rows)[k]? = some k := by
    rw [List.getElem?_range hk]
  simp only [Matrix.coeff, Matrix.transpose, hp, hk, and_self, if_true, List.getElem?_map, hx,
    Option.map_some', Option.some_bind]
  exact hi p

/-- In a well-formed cloud whose spans fit the rows, a lookup returns a well-formed matrix. -/
theorem getDescriptorByName_wf {T : Type} (d : DataPoints T) (name : String)
    (hwf : d.descriptors.WF) (hsum : spanSum d.descriptorLabels ≤ d.descriptors.rows) :
    ∃ desc, d.getDescriptorByName name = some desc ∧ desc.WF := by
  have hrows : d.descriptors.rows < 2147483648 := hwf.2.2.1
  by_cases hname : ∃ l ∈ d.descriptorLabels, l.text = name
  · obtain ⟨pre, l, post, hsplit, hpre, hl⟩ := first_label_split name d.descriptorLabels hname
    have hs := hsum
    rw [hsplit, spanSum_append, spanSum_cons] at hs
    have hb := getDescriptorByName_eq_block d name pre l post hsplit hpre hl (by omega)
    rw [Matrix.block_rows_eq d.descriptors hwf.1 (spanSum pre) l.span (by omega)] at hb
    refine ⟨_, hb, ?_, ?_, by show l.span < 2147483648; omega, hwf.2.2.2⟩
    · show (d.descriptors.data.map _).length = d.descriptors.cols
      rw [List.length_map, hwf.1]
    · intro col hcol
      obtain ⟨c, hc, rfl⟩ := List.mem_map.mp hcol
      show ((c.drop (spanSum pre)).take l.span).length = l.span
      rw [List.length_take, List.length_drop, hwf.2.1 c hc]
      omega
  · refine ⟨Matrix.empty, getDescriptorByNameFrom_absent d.descriptors name _ 0 ?_, ?_⟩
    · intro l hl ht
      exact hname ⟨l, hl, ht⟩
    · unfold Matrix.WF Matrix.empty
      simp

/-- The matrix `padWithZeros` returns for a well-formed matrix that fits the expected
shape. -/
theorem padWithZeros_padded {T : Type} [Zero T] (m : Matrix T) (eR eC : Nat)
    (hwf : m.WF) (hr : m.rows ≤ eR) (hc : m.cols ≤ eC)
    (hR : eR < 2147483648) (hC : eC < 2147483648) :
    ∃ p, padWithZeros m (eR : Int) (eC : Int) = some p ∧ p.rows = eR ∧ p.cols = eC ∧ p.WF ∧
      ∀ r c, r < eR → c < eC →
        p.coeff r c = if r < m.rows ∧ c < m.cols then m.coeff r c else some 0 := by
  have a1 : ((m.cols : Int) ≤ eC ∨ (m.rows : Int) ≤ eR) := Or.inl (by omega)
  by_cases hshape : (m.cols : Int) = eC ∧ (m.rows : Int) = eR
  · have e1 : m.rows = eR := by omega
    have e2 : m.cols = eC := by omega
    refine ⟨m, ?_, e1, e2, hwf, ?_⟩
    · rw [← e1, ← e2]
      simp only [padWithZeros, le_refl, or_self, not_true_eq_false, if_false, and_self,
        if_true]
    · intro r c hr hc
      have h1 : r < m.rows := by omega
      have h2 : c < m.cols := by omega
      simp [h1, h2]
  · have z : (0 : Int) ≤ eR ∧ (0 : Int) ≤ eC := ⟨by omega, by omega⟩
    have hp : padWithZeros m (eR : Int) (eC : Int) =
        some ⟨eR, eC, overlayColumns m.rows (m.data.take m.cols)
          (List.replicate eC (List.replicate eR (0 : T)))⟩ := by
      simp only [padWithZeros, a1, not_true_eq_false, if_false, hshape, Matrix.Zero, z,
        and_self, if_true, Int.toNat_ofNat, Matrix.assignTopLeft, hr, hc]
    refine ⟨_, hp, rfl, rfl, ⟨?_, ?_, hR, hC⟩, ?_⟩
    · simp [overlayColumns_length]
    · intro col hcol
      obtain ⟨c, hcl, hce⟩ := List.mem_iff_getElem.mp hcol
      have hcC : c < eC := by simpa [overlayColumns_length] using hcl
      obtain ⟨col2, h1, h2, _⟩ := padded_column m eR eC hwf hr c hcC
      rw [List.getElem?_eq_getElem hcl, hce] at h1
      cases h1
      exact h2
    · intro r c hrr hcc
      obtain ⟨col, h1, _, h3⟩ := padded_column m eR eC hwf hr c hcc
      simp only [Matrix.coeff, hrr, hcc, and_self, if_true, h1, Option.bind_some]
      exact h3 r hrr

/-- C23 as amended: in a well-formed cloud whose spans fit the descriptor rows, the
descriptor under `nameTag` having `r ≤ forcedDim` rows and `N` columns,
`buildGenericAttributeStream` writes
nothing if and only if `r = 0`; otherwise it writes the header `<attribute> <nameTag> float`,
the line `LOOKUP_TABLE default` exactly when the attribute is `SCALARS`, then a table of `N`
rows and `forcedDim` columns whose row `p` holds the `r` descriptor values of point `p`
followed by zeros. -/
theorem buildGenericAttributeStream_spec {T : Type} [Zero T] (attrib nameTag : String)
    (cloud : DataPoints T) (forcedDim : Int)
    (hwf : cloud.descriptors.WF)
    (hsum : spanSum cloud.descriptorLabels ≤ cloud.descriptors.rows)
    (hF : forcedDim < 2147483648) :
    ∃ desc, cloud.getDescriptorByName nameTag = some desc ∧
      ((desc.rows : Int) ≤ forcedDim →
        ∃ out, buildGenericAttributeStream attrib nameTag cloud forcedDim = some out ∧
          (out = [] ↔ desc.rows = 0) ∧
          (desc.rows ≠ 0 →
            ∃ table, out =
                [Chunk.text attrib, Chunk.text " ", Chunk.text nameTag, Chunk.text " float\n"]
                ++ (if attrib = "SCALARS" then [Chunk.text "LOOKUP_TABLE default\n"] else [])
                ++ [Chunk.matrix table, Chunk.text "\n"] ∧
              table.rows = desc.cols ∧ (table.cols : Int) = forcedDim ∧
              ∀ p k, p < table.rows → k < table.cols →
                table.coeff p k = if k < desc.rows then desc.coeff k p else some 0)) := by
  obtain ⟨desc, hdesc, hdwf⟩ := getDescriptorByName_wf cloud nameTag hwf hsum
  refine ⟨desc, hdesc, ?_⟩
  intro hle
  have hnot : ¬ ¬ ((desc.rows : Int) ≤ forcedDim) := not_not.mpr hle
  by_cases h0 : desc.rows = 0
  · refine ⟨[], ?_, ⟨fun _ => h0, fun _ => rfl⟩, fun h => absurd h0 h⟩
    have hcond : ¬ (desc.rows ≠ 0 ∧ desc.rows ≠ 0) := fun h => h.1 h0
    simp only [buildGenericAttributeStream, hdesc, hnot, if_false, hcond]
  · lift forcedDim to Nat using (by omega) with fD
    obtain ⟨padded, hpad, hpr, hpc, hpwf, hpco⟩ :=
      padWithZeros_padded desc fD desc.cols hdwf (by omega) (le_refl _) (by omega)
        hdwf.2.2.2
    refine ⟨_, ?_, ⟨fun h => ?_, fun h => absurd h h0⟩, fun _ => ⟨padded.transpose, rfl, ?_, ?_, ?_⟩⟩
    · have hne : desc.rows ≠ 0 := h0
      simp only [buildGenericAttributeStream, hdesc, hnot, if_false, and_self, hne, ne_eq,
        not_false_eq_true, if_true, hpad]
    · simp at h
    · show padded.cols = desc.cols
      exact hpc
    · show ((padded.rows : Nat) : Int) = (fD : Int)
      rw [hpr]
    · intro p k hp hk
      have hp2 : p < padded.cols := hp
      have hk2 : k < padded.rows := hk
      rw [Matrix.transpose_coeff padded hpwf p k hp2 hk2, hpco k p (by omega) (by omega)]
      have hpd : p < desc.cols := by omega
      simp [hpd]

/-- Witness of the amended C23: the two-row descriptor `normals` of `normalsCloud`, forced to three. -/
theorem buildGenericAttributeStream_spec_witness :
    normalsCloud.descriptors.WF ∧
    spanSum normalsCloud.descriptorLabels ≤ normalsCloud.descriptors.rows ∧
    ∃ desc, normalsCloud.getDescriptorByName "normals" = some desc ∧
      ((desc.rows : Int) ≤ 3 →
        ∃ out, buildGenericAttributeStream "NORMALS" "normals" normalsCloud 3 = some out ∧
          (out = [] ↔ desc.rows = 0)) :=
  ⟨by decide, by decide,
    match buildGenericAttributeStream_spec "NORMALS" "normals" normalsCloud 3 (by decide)
      (by decide) (by decide) with
    | ⟨desc, h1, h2⟩ => ⟨desc, h1, fun hle =>
        match h2 hle with
        | ⟨out, h3, h4, _⟩ => ⟨out, h3, h4⟩⟩⟩

/-! ## Completion of the dumps -/

/-- The attribute stream is built when the descriptor looked up fits the forced dimension. -/
theorem buildGenericAttributeStream_returns {T : Type} [Zero T] (attrib nameTag : String)
    (cloud : DataPoints T) (forcedDim : Int)
    (hwf : cloud.descriptors.WF)
    (hsum : spanSum cloud.descriptorLabels ≤ cloud.descriptors.rows)
    (hF : forcedDim < 2147483648)
    (hfit : ∀ desc ∈ cloud.getDescriptorByName nameTag, (desc.rows : Int) ≤ forcedDim) :
    ∃ out, buildGenericAttributeStream attrib nameTag cloud forcedDim = some out := by
  obtain ⟨desc, hdesc, hdwf⟩ := getDescriptorByName_wf cloud nameTag hwf hsum
  have hle : (desc.rows : Int) ≤ forcedDim := hfit desc hdesc
  have hnot : ¬ ¬ ((desc.rows : Int) ≤ forcedDim) := not_not.mpr hle
  by_cases h0 : desc.rows = 0
  · have hcond : ¬ (desc.rows ≠ 0 ∧ desc.rows ≠ 0) := fun h => h.1 h0
    exact ⟨[], by simp only [buildGenericAttributeStream, hdesc, hnot, if_false, hcond]⟩
  · lift forcedDim to Nat using (by omega) with fD
    obtain ⟨padded, hpad, _⟩ :=
      padWithZeros_padded desc fD desc.cols hdwf (by omega) (le_refl _) (by omega)
        hdwf.2.2.2
    have hne : desc.rows ≠ 0 := h0
    refine Option.isSome_iff_exists.mp ?_
    simp only [buildGenericAttributeStream, hdesc, hnot, if_false, and_self, hne, ne_eq,
      not_false_eq_true, if_true, hpad]
    rfl

/-- `dumpDataPoints` completes on a cloud it accepts. -/
theorem dumpDataPoints_returns {T : Type} [Zero T] (data : DataPoints T)
    (h : Dumpable data) : ∃ out, dumpDataPoints data = some out := by
  obtain ⟨hwf, hsum, hfit⟩ := h
  obtain ⟨pts, hpts⟩ := pointsBlock_isSome (data.features.rows == 4) data.features
    (fun h => by have := of_decide_eq_true h; omega)
  obtain ⟨d1, h1⟩ := buildGenericAttributeStream_returns "SCALARS" "densities" data 1 hwf hsum
    (by decide) (hfit ("densities", 1) (by decide))
  obtain ⟨d2, h2⟩ := buildGenericAttributeStream_returns "NORMALS" "normals" data 3 hwf hsum
    (by decide) (hfit ("normals", 3) (by decide))
  obtain ⟨d3, h3⟩ := buildGenericAttributeStream_returns "VECTORS" "eigValues" data 3 hwf hsum
    (by decide) (hfit ("eigValues", 3) (by decide))
  obtain ⟨d4, h4⟩ := buildGenericAttributeStream_returns "TENSORS" "eigVectors" data 9 hwf
    hsum (by decide) (hfit ("eigVectors", 9) (by decide))
  refine Option.isSome_iff_exists.mp ?_
  simp only [dumpDataPoints, hpts, buildScalarStream, buildNormalStream, buildVectorStream,
    buildTensorStream, h1, h2, h3, h4]
  rfl

/-- `dumpDataLinks` completes when matches and weights have a row and a column per reading
point, the reading has the feature rows printed, and the point total is an `int`. -/
theorem dumpDataLinks_returns {T : Type} (ref reading : DataPoints T) (matches_ : Matches T)
    (featureOutlierWeights : OutlierWeights T)
    (hids : matches_.ids.WF) (hw : featureOutlierWeights.WF)
    (hidr : 1 ≤ matches_.ids.rows) (hidc : matches_.ids.cols = reading.features.cols)
    (hwr : 1 ≤ featureOutlierWeights.rows)
    (hwc : featureOutlierWeights.cols = reading.features.cols)
    (hdim : ref.features.rows = 4 → 3 ≤ reading.features.rows)
    (hfit : ref.features.cols + reading.features.cols < 2147483648) :
    ∃ out, dumpDataLinks ref reading matches_ featureOutlierWeights = some out := by
  obtain ⟨hil, hico⟩ := Matrix.firstRow_spec matches_.ids hids hidr
  obtain ⟨hwl, hwco⟩ := Matrix.firstRow_spec featureOutlierWeights hw hwr
  obtain ⟨refPts, hrp⟩ := pointsBlock_isSome (ref.features.rows == 4) ref.features
    (fun h => by have := of_decide_eq_true h; omega)
  obtain ⟨readingPts, hdp⟩ := pointsBlock_isSome (ref.features.rows == 4) reading.features
    (fun h => hdim (of_decide_eq_true h))
  have hlinks := linkRecords_range T (ref.features.cols : Int) matches_.ids (by omega)
    hil hico (by omega) matches_.ids.cols 0 (by omega)
  have hout := outlierRecords_range featureOutlierWeights hwl hwco featureOutlierWeights.cols 0
    (by omega)
  rw [← List.range_eq_range', hidc] at hlinks
  rw [← List.range_eq_range', hwc] at hout
  refine Option.isSome_iff_exists.mp ?_
  unfold dumpDataLinks
  simp only [hrp, hdp, hlinks, hout]
  rfl

/-! ## Returning from `dumpIteration` -/

/-- C13 as amended: on well-formed arguments (matches and weights with a row and a column per
reading point, a reading with the feature rows printed, a point total that is an `int`, two
clouds the polydata dump accepts, checkers with parallel lists) `dumpIteration` returns if and
only if `streamIter` is not null; it returns on an inspector on which `init()` was called. -/
theorem dumpIteration_returns {T : Type} [Zero T] (insp : VTKFileInspector)
    (iterationCount : Nat) (parameters : Matrix T) (filteredReference reading : DataPoints T)
    (matches_ : Matches T) (featureOutlierWeights descriptorOutlierWeights : OutlierWeights T)
    (transCheck : TransformationCheckers T)
    (hids : matches_.ids.WF) (hw : featureOutlierWeights.WF)
    (hidr : 1 ≤ matches_.ids.rows) (hidc : matches_.ids.cols = reading.features.cols)
    (hwr : 1 ≤ featureOutlierWeights.rows)
    (hwc : featureOutlierWeights.cols = reading.features.cols)
    (hdim : filteredReference.features.rows = 4 → 3 ≤ reading.features.rows)
    (hfit : filteredReference.features.cols + reading.features.cols < 2147483648)
    (hreading : Dumpable reading) (href : Dumpable filteredReference)
    (hpar : ParallelLists transCheck) :
    (AbstractVTKInspector.dumpIteration insp iterationCount parameters filteredReference
      reading matches_ featureOutlierWeights descriptorOutlierWeights transCheck).returned =
        insp.streamIter.isSome ∧
    (AbstractVTKInspector.dumpIteration
      (VTKFileInspector.init insp : VTKFileInspector × List (FsEvent T)).1 iterationCount
      parameters filteredReference reading matches_ featureOutlierWeights
      descriptorOutlierWeights transCheck).returned = true := by
  obtain ⟨links, hl⟩ := dumpDataLinks_returns filteredReference reading matches_
    featureOutlierWeights hids hw hidr hidc hwr hwc hdim hfit
  obtain ⟨rd, hr⟩ := dumpDataPoints_returns reading hreading
  obtain ⟨rf, hq⟩ := dumpDataPoints_returns filteredReference href
  have key : ∀ i2 : VTKFileInspector,
      (AbstractVTKInspector.dumpIteration i2 iterationCount parameters filteredReference
        reading matches_ featureOutlierWeights descriptorOutlierWeights transCheck).returned =
          i2.streamIter.isSome := by
    intro i2
    unfold AbstractVTKInspector.dumpIteration
    simp only [hl, hr, hq, iterationInfo_eq iterationCount transCheck hpar]
    cases i2.streamIter <;> rfl
  exact ⟨key insp, by rw [key]; rfl⟩

/-- Witness of the amended C13: the inspector of the driver on clouds of one point. -/
theorem dumpIteration_returns_witness :
    oneMatch.ids.WF ∧ oneWeight.WF ∧ Dumpable onePoint ∧ ParallelLists sampleCheckers ∧
    (AbstractVTKInspector.dumpIteration testInspector 5 Matrix.empty onePoint onePoint oneMatch
      oneWeight oneWeight sampleCheckers).returned = testInspector.streamIter.isSome :=
  ⟨by decide, by decide, by decide, by decide,
    (dumpIteration_returns testInspector 5 Matrix.empty onePoint onePoint oneMatch oneWeight
      oneWeight sampleCheckers (by decide) (by decide) (by decide) (by decide) (by decide)
      (by decide) (by decide) (by decide) (by decide) (by decide) (by decide)).1⟩

/-! ## Appending to the iteration CSV -/

/-- Counterexample to C12: with checkers of parallel lists, an inspector whose CSV stream is
open, and the empty matches of a matcher that found nothing, the call stops in
`dumpDataLinks`: it has opened `test-link-0.vtk` and appends nothing to the CSV stream. -/
theorem dumpIteration_csv_not_reached :
    ParallelLists sampleCheckers ∧
    testInspector.streamIter = some "test-iterationInfo.csv" ∧
    AbstractVTKInspector.dumpIteration testInspector 0 Matrix.empty onePoint onePoint noMatch
      oneWeight oneWeight sampleCheckers = ⟨[FsEvent.opened "test-link-0.vtk"], false⟩ := by
  decide

/-- C12 as amended: when every checker has values, limits, value names and limit names of one
length, a call of `dumpIteration` on an inspector whose `streamIter` is set and whose three
dumps complete ends by appending to that stream the header line if and only if
`iterationCount == 0`, then exactly one data line, and returns; both lines hold
`2 × valueNameCount` fields, each followed by `", "`, before their end of line. -/
theorem dumpIteration_csv_lines {T : Type} [Zero T] (insp : VTKFileInspector) (csv : String)
    (iterationCount : Nat) (parameters : Matrix T) (filteredReference reading : DataPoints T)
    (matches_ : Matches T) (featureOutlierWeights descriptorOutlierWeights : OutlierWeights T)
    (transCheck : TransformationCheckers T)
    (h : ParallelLists transCheck) (hs : insp.streamIter = some csv)
    (hl : (dumpDataLinks filteredReference reading matches_ featureOutlierWeights).isSome
      = true)
    (hr : (dumpDataPoints reading).isSome = true)
    (hq : (dumpDataPoints filteredReference).isSome = true) :
    (∃ polydata, polydata.length = 9 ∧
      (∀ e ∈ polydata, ∀ content, e ≠ FsEvent.wrote csv content ∨
        ∃ role ∈ iterationRoles, csv = insp.openStreamIter role iterationCount) ∧
      AbstractVTKInspector.dumpIteration insp iterationCount parameters filteredReference
        reading matches_ featureOutlierWeights descriptorOutlierWeights transCheck =
        ⟨polydata ++ [FsEvent.wrote csv
          ((if iterationCount = 0 then csvHeaderLine transCheck else []) ++
            csvDataLine transCheck)], true⟩) ∧
    (csvHeaderLine transCheck).length = 2 * (2 * valueNameCount transCheck) + 1 ∧
    (csvDataLine transCheck).length = 2 * (2 * valueNameCount transCheck) + 1 := by
  refine ⟨?_, csvHeaderLine_length transCheck h, csvDataLine_length transCheck h⟩
  obtain ⟨links, hl⟩ := Option.isSome_iff_exists.mp hl
  obtain ⟨rd, hr⟩ := Option.isSome_iff_exists.mp hr
  obtain ⟨rf, hq⟩ := Option.isSome_iff_exists.mp hq
  unfold AbstractVTKInspector.dumpIteration
  simp only [hl, hr, hq, hs, iterationInfo_eq iterationCount transCheck h]
  refine ⟨_, by simp, ?_, rfl⟩
  intro e he content
  simp only [List.cons_append, List.nil_append, List.mem_cons, List.mem_singleton,
    List.not_mem_nil, or_false] at he
  by_cases hc1 : csv = insp.openStreamIter "link" iterationCount
  · exact Or.inr ⟨"link", by decide, hc1⟩
  by_cases hc2 : csv = insp.openStreamIter "reading" iterationCount
  · exact Or.inr ⟨"reading", by decide, hc2⟩
  by_cases hc3 : csv = insp.openStreamIter "reference" iterationCount
  · exact Or.inr ⟨"reference", by decide, hc3⟩
  left
  rcases he with rfl | rfl | rfl | rfl | rfl | rfl | rfl | rfl | rfl <;> simp <;>
    intro hh <;>
    (first
      | exact absurd hh.symm hc1
      | exact absurd hh.symm hc2
      | exact absurd hh.symm hc3)

/-- Witness of the amended C12: the sample checkers on iteration 0 of the driver inspector. -/
theorem dumpIteration_csv_lines_witness :
    ParallelLists sampleCheckers ∧
    testInspector.streamIter = some "test-iterationInfo.csv" ∧
    (dumpDataLinks onePoint onePoint oneMatch oneWeight).isSome = true ∧
    (dumpDataPoints onePoint).isSome = true ∧
    (csvHeaderLine sampleCheckers).length = 2 * (2 * valueNameCount sampleCheckers) + 1 :=
  ⟨by decide, by decide, by decide, by decide,
    (dumpIteration_csv_lines testInspector "test-iterationInfo.csv" 0 Matrix.empty onePoint
      onePoint oneMatch oneWeight oneWeight sampleCheckers (by decide) (by decide) (by decide)
      (by decide) (by decide)).2.1⟩
/-! ## Safety of the copy in `padWithZeros` -/

/-- Counterexample to C23: `tallDens` satisfies the data-model invariant and has two
descriptor rows under `densities`; forced to one row as `buildScalarStream` does, the call
fails `assert(desc.rows() <= forcedDim)` and writes nothing.  On `mislabelledCloud` the
lookup itself is out of bounds. -/
theorem buildGenericAttributeStream_fails_on_tall_descriptor :
    tallDens.Invariant ∧
    tallDens.getDescriptorByName "densities" = some ⟨2, 1, [[1, 2]]⟩ ∧
    buildGenericAttributeStream "SCALARS" "densities" tallDens 1 = none ∧
    buildGenericAttributeStream "NORMALS" "normals" mislabelledCloud 3 = none := by
  decide

end MetricSpaceAligner
